import Mathlib

/-!
Shallow embedding of the PLP prediction-market program (Rust / Anchor, program
`plp_prediction_market`) and proofs about it.

Machine integers are modelled as `Nat`.  Rust `checked_add` / `checked_sub` on
`u64` are modelled as `Option Nat` (failing on overflow past `2^64` and on
underflow).  Plain (unchecked) `u64` multiplication, which wraps in release
builds, is modelled with an explicit `% 2^64`; `u128` intermediates whose
operands are bounded by `2^64` cannot overflow and are modelled as plain `Nat`
arithmetic.  Casts `as u64` from `u128` are modelled with an explicit `% 2^64`
(`u64cast`).  Fallible handlers return `Except ErrorCode σ`; on-chain a failed
instruction rolls back every account write, so an `error` result leaves all
state unchanged and the step relations below only relate successful runs.
-/

namespace PLP

/-! ## Word-size helpers -/

def U64MOD : Nat := 2 ^ 64

/-- Truncating cast from a wide integer to `u64` (Rust `as u64`). -/
def u64cast (x : Nat) : Nat := x % U64MOD

/-- Rust `u64::checked_add`. -/
def checkedAdd (a b : Nat) : Option Nat :=
  if a + b < U64MOD then some (a + b) else none

/-- Rust `u64::checked_sub`. -/
def checkedSub (a b : Nat) : Option Nat :=
  if b ≤ a then some (a - b) else none

/-- Unchecked `u64` multiplication (wraps in release builds). -/
def u64mul (a b : Nat) : Nat := a * b % U64MOD

/-- Unchecked `u64` addition (wraps in release builds). -/
def u64add (a b : Nat) : Nat := (a + b) % U64MOD

/-! ## Constants (`src/constants.rs`) -/

def TRADE_FEE_BPS : Nat := 150
def COMPLETION_FEE_BPS : Nat := 500
def MIN_INVESTMENT_LAMPORTS : Nat := 10000000
def BPS_DIVISOR : Nat := 10000
def MAX_POOL_FOR_TOKEN_LAUNCH : Nat := 50000000000
def PLATFORM_TOKEN_SHARE_BPS : Nat := 200
def TEAM_TOKEN_SHARE_BPS : Nat := 3300
def TEAM_IMMEDIATE_SHARE_BPS : Nat := 800
def TEAM_VESTED_SHARE_BPS : Nat := 2500

/-- Modelled from the spec: `FOUNDER_IMMEDIATE_SHARE_BPS` is referenced by
`resolve_market.rs` and `init_founder_vesting.rs` but its defining constant is
not under `src/`; the doc comments in both files fix it at 8% (800 bps),
matching `TEAM_IMMEDIATE_SHARE_BPS`. -/
def FOUNDER_IMMEDIATE_SHARE_BPS : Nat := 800

/-! ## Error codes (`src/errors.rs`, the subset raised by the modelled code) -/

inductive ErrorCode where
  | MarketExpired
  | CannotResolveYet
  | AlreadyResolved
  | AlreadyHasPosition
  | InvestmentTooSmall
  | AlreadyClaimed
  | Unauthorized
  | MathError
  | InsufficientBalance
  | InvalidResolutionState
  | InvalidMarketPhase
  | TargetNotReached
  | YesNotWinning
  | NothingToClaim
  | PumpFunCpiFailed
  | InvalidAccountData
  | InvalidTargetPool
  | MarketNotExpired
  | AccountDidNotSerialize
  deriving DecidableEq, Repr

/-- `require!(cond, err)`: abort the instruction with `err` unless `cond`. -/
def req (cond : Prop) [Decidable cond] (e : ErrorCode) : Except ErrorCode Unit :=
  if cond then .ok () else .error e

/-- Rust `opt.ok_or(err)?`. -/
def okOr (o : Option α) (e : ErrorCode) : Except ErrorCode α :=
  match o with
  | some a => .ok a
  | none => .error e

/-! ## State (`src/state/market.rs`, `src/state/position.rs`)

Pubkey-typed fields (founder, treasury, token mint, …) and pure metadata are
kept only where an instruction's logic branches on them; identities are
abstracted to the booleans the handlers actually test. -/

inductive MarketPhase where
  | Prediction
  | Funding
  deriving DecidableEq, Repr

inductive MarketResolution where
  | Unresolved
  | YesWins
  | NoWins
  | Refund
  deriving DecidableEq, Repr

structure Market where
  target_pool : Nat
  pool_balance : Nat
  distribution_pool : Nat
  yes_pool : Nat
  no_pool : Nat
  total_yes_shares : Nat
  total_no_shares : Nat
  expiry_time : Int
  phase : MarketPhase
  resolution : MarketResolution
  platform_tokens_allocated : Nat
  yes_voter_tokens_allocated : Nat
  founder_excess_sol_allocated : Nat
  deriving DecidableEq, Repr

structure Position where
  yes_shares : Nat
  no_shares : Nat
  total_invested : Nat
  claimed : Bool
  deriving DecidableEq, Repr

/-- A freshly initialized position (`buy_yes.rs` / `buy_no.rs`, the
`position.user == Pubkey::default()` branch). -/
def Position.init : Position :=
  { yes_shares := 0, no_shares := 0, total_invested := 0, claimed := false }

/-! ## AMM (`src/utils/amm.rs`)

`k = yes_pool * no_pool` is computed in `u128`: with both operands below
`2^64` the checked multiplication, the `u128` addition of a `u64`, and the
divisions by nonzero values can never fail, so those are plain `Nat`
operations here; the `u128` `checked_sub` is kept as an explicit guard, and
the final `as u64` cast as `u64cast`. -/

/-- `calculate_shares_from_sol` (`amm.rs` lines 42–111). -/
def calculate_shares_from_sol (yes_pool no_pool sol_lamports : Nat)
    (buy_yes : Bool) : Except ErrorCode Nat :=
  if yes_pool = 0 ∨ no_pool = 0 then .error .MathError
  else if sol_lamports = 0 then .ok 0
  else
    let k := yes_pool * no_pool
    if buy_yes then
      let no_pool_new := no_pool + sol_lamports
      let yes_pool_new := k / no_pool_new
      if yes_pool < yes_pool_new then .error .MathError
      else
        let shares := yes_pool - yes_pool_new
        if yes_pool_new < 10000000 then .error .InsufficientBalance
        else .ok (u64cast shares)
    else
      let yes_pool_new := yes_pool + sol_lamports
      let no_pool_new := k / yes_pool_new
      if no_pool < no_pool_new then .error .MathError
      else
        let shares := no_pool - no_pool_new
        if no_pool_new < 10000000 then .error .InsufficientBalance
        else .ok (u64cast shares)

/-- `get_yes_price` (`amm.rs` lines 118–132): `no_pool * 1e9 / (yes + no)`. -/
def get_yes_price (yes_pool no_pool : Nat) : Except ErrorCode Nat :=
  if yes_pool = 0 ∧ no_pool = 0 then .error .MathError
  else
    let total := yes_pool + no_pool
    if total = 0 then .error .MathError
    else .ok (u64cast (no_pool * 1000000000 / total))

/-- `get_no_price` (`amm.rs` lines 139–153): `yes_pool * 1e9 / (yes + no)`. -/
def get_no_price (yes_pool no_pool : Nat) : Except ErrorCode Nat :=
  if yes_pool = 0 ∧ no_pool = 0 then .error .MathError
  else
    let total := yes_pool + no_pool
    if total = 0 then .error .MathError
    else .ok (u64cast (yes_pool * 1000000000 / total))

/-! ## Trading (`src/instructions/buy_yes.rs`, `src/instructions/buy_no.rs`)

`now` is the clock sysvar.  The Anchor account constraint
`market.resolution == Unresolved @ AlreadyResolved` runs before the handler
body and is the first check here.  SOL transfers to the treasury / vault and
the treasury `total_fees` bookkeeping touch no market or position field and
abort only on u64 overflow of the global fee counter; they are outside the
modelled state. -/

/-- Fee and Prediction-phase cap computation shared verbatim by `buy_yes.rs`
(lines 80–112) and `buy_no.rs` (lines 70–106).  Returns
`(actual_sol_amount, trade_fee, net_amount)`. -/
def computeFeeAndCap (m : Market) (sol_amount : Nat) :
    Except ErrorCode (Nat × Nat × Nat) := do
  let actual0 := sol_amount
  let fee0 := u64mul actual0 TRADE_FEE_BPS / BPS_DIVISOR
  let net0 ← okOr (checkedSub actual0 fee0) .MathError
  if m.phase = .Prediction then
    let remaining_capacity ← okOr (checkedSub m.target_pool m.pool_balance) .MathError
    if remaining_capacity < net0 then
      let net := remaining_capacity
      let actual := u64mul net BPS_DIVISOR / (BPS_DIVISOR - TRADE_FEE_BPS)
      let fee ← okOr (checkedSub actual net) .MathError
      pure (actual, fee, net)
    else
      pure (actual0, fee0, net0)
  else
    pure (actual0, fee0, net0)

/-- `buy_yes::handler`. -/
def buy_yes_handler (now : Int) (m : Market) (p : Position) (sol_amount : Nat) :
    Except ErrorCode (Market × Position) := do
  req (m.resolution = .Unresolved) .AlreadyResolved
  req (now < m.expiry_time) .MarketExpired
  req (MIN_INVESTMENT_LAMPORTS ≤ sol_amount) .InvestmentTooSmall
  let (actual_sol_amount, _trade_fee, net_amount) ← computeFeeAndCap m sol_amount
  req (p.no_shares = 0) .AlreadyHasPosition
  let pool_balance' ← okOr (checkedAdd m.pool_balance net_amount) .MathError
  let shares ← calculate_shares_from_sol m.yes_pool m.no_pool net_amount true
  req (0 < shares) .MathError
  let yes_pool' ← okOr (checkedSub m.yes_pool shares) .MathError
  let no_pool' ← okOr (checkedAdd m.no_pool net_amount) .MathError
  let total_yes' ← okOr (checkedAdd m.total_yes_shares shares) .MathError
  let p_yes' ← okOr (checkedAdd p.yes_shares shares) .MathError
  let p_inv' ← okOr (checkedAdd p.total_invested actual_sol_amount) .MathError
  pure ({ m with pool_balance := pool_balance', yes_pool := yes_pool',
                 no_pool := no_pool', total_yes_shares := total_yes' },
        { p with yes_shares := p_yes', total_invested := p_inv' })

/-- `buy_no::handler`. -/
def buy_no_handler (now : Int) (m : Market) (p : Position) (sol_amount : Nat) :
    Except ErrorCode (Market × Position) := do
  req (m.resolution = .Unresolved) .AlreadyResolved
  req (now < m.expiry_time) .MarketExpired
  req (MIN_INVESTMENT_LAMPORTS ≤ sol_amount) .InvestmentTooSmall
  let (actual_sol_amount, _trade_fee, net_amount) ← computeFeeAndCap m sol_amount
  req (p.yes_shares = 0) .AlreadyHasPosition
  let pool_balance' ← okOr (checkedAdd m.pool_balance net_amount) .MathError
  let shares ← calculate_shares_from_sol m.yes_pool m.no_pool net_amount false
  req (0 < shares) .MathError
  let no_pool' ← okOr (checkedSub m.no_pool shares) .MathError
  let yes_pool' ← okOr (checkedAdd m.yes_pool net_amount) .MathError
  let total_no' ← okOr (checkedAdd m.total_no_shares shares) .MathError
  let p_no' ← okOr (checkedAdd p.no_shares shares) .MathError
  let p_inv' ← okOr (checkedAdd p.total_invested actual_sol_amount) .MathError
  pure ({ m with pool_balance := pool_balance', yes_pool := yes_pool',
                 no_pool := no_pool', total_no_shares := total_no' },
        { p with no_shares := p_no', total_invested := p_inv' })

/-! ## Market extension (`src/instructions/extend_market.rs`) -/

/-- `extend_market::handler`, including the `ExtendMarket` account
constraints (`founder` signer check, Prediction phase, Unresolved). -/
def extend_market_handler (callerIsFounder : Bool) (m : Market) :
    Except ErrorCode Market := do
  req (callerIsFounder = true) .Unauthorized
  req (m.phase = .Prediction) .InvalidMarketPhase
  req (m.resolution = .Unresolved) .AlreadyResolved
  req (m.target_pool ≤ m.pool_balance) .TargetNotReached
  req (m.total_no_shares < m.total_yes_shares) .YesNotWinning
  pure { m with phase := .Funding }

/-! ## Resolution (`src/instructions/resolve_market.rs`)

External inputs of the instruction: the vault's actual lamport balance, the
rent-exempt minimum, the Pump.fun bonding-curve reserves, whether the
Pump.fun buy CPI succeeded, and the market token-account balance it left
behind.  All of them are fields of `ResolveExt`. -/

structure ResolveExt where
  vault_lamports : Nat
  vault_rent_exempt : Nat
  virtual_token_reserves : Nat
  virtual_sol_reserves : Nat
  cpi_ok : Bool
  total_tokens : Nat
  deriving DecidableEq, Repr

/-- The resolution-permission predicate (`resolve_market.rs` lines 141–157). -/
def resolvePermitted (now : Int) (callerIsFounder : Bool) (m : Market) : Prop :=
  m.expiry_time ≤ now ∨
  (callerIsFounder = true ∧ m.phase = .Funding) ∨
  (m.target_pool ≤ m.pool_balance ∧ m.total_yes_shares < m.total_no_shares)

instance (now : Int) (cf : Bool) (m : Market) :
    Decidable (resolvePermitted now cf m) := by
  unfold resolvePermitted; infer_instance

/-- The outcome decision (`resolve_market.rs` lines 163–175). -/
def decideResolution (m : Market) : MarketResolution :=
  if m.pool_balance < m.target_pool then .Refund
  else if m.total_no_shares < m.total_yes_shares then .YesWins
  else if m.total_yes_shares < m.total_no_shares then .NoWins
  else .Refund

/-- The Pump.fun bonding-curve quote computed for the buy CPI argument
(`resolve_market.rs` lines 277–302): a constant-product swap amount with a
1% slippage buffer. -/
def pumpfun_token_quote (virtual_token_reserves virtual_sol_reserves
    net_amount : Nat) : Nat :=
  let k := virtual_token_reserves * virtual_sol_reserves
  let new_virtual_sol_reserves := virtual_sol_reserves + net_amount
  let new_virtual_token_reserves := k / new_virtual_sol_reserves
  let token_amount_exact :=
    u64cast (virtual_token_reserves - new_virtual_token_reserves)
  u64cast (token_amount_exact * 99 / 100)

/-- The `YesWins` branch of `resolve_market::handler` (lines 182–501).  The
Pump.fun CPI account plumbing is external; only its fallibility (`cpi_ok`)
and the resulting token balance (`total_tokens`) matter to the market
state. -/
def resolveYesWins (m : Market) (ext : ResolveExt) : Except ErrorCode Market := do
  let vault_lamports := ext.vault_lamports
  let completion_fee := u64mul vault_lamports COMPLETION_FEE_BPS / BPS_DIVISOR
  let sol_after_fee ← okOr (checkedSub vault_lamports completion_fee) .MathError
  let excess_sol := sol_after_fee - MAX_POOL_FOR_TOKEN_LAUNCH
  let total_reserved := u64add (u64add ext.vault_rent_exempt completion_fee) excess_sol
  let net_amount_for_token ← okOr (checkedSub vault_lamports total_reserved) .MathError
  -- bonding-curve quote for the CPI argument (lines 252–302)
  req (0 < ext.virtual_token_reserves ∧ 0 < ext.virtual_sol_reserves) .InvalidAccountData
  let _token_amount := pumpfun_token_quote ext.virtual_token_reserves
    ext.virtual_sol_reserves net_amount_for_token
  -- the CPI itself (lines 358–387)
  req (ext.cpi_ok = true) .PumpFunCpiFailed
  let total_tokens := ext.total_tokens
  -- completion fee to treasury, founder-excess split (lines 419–477)
  let m ← if 0 < excess_sol then do
      let founder_immediate_sol := u64mul excess_sol FOUNDER_IMMEDIATE_SHARE_BPS / BPS_DIVISOR
      let _founder_vesting_sol ← okOr (checkedSub excess_sol founder_immediate_sol) .MathError
      pure { m with founder_excess_sol_allocated := excess_sol }
    else
      pure m
  -- allocations (lines 485–500)
  let platform_tokens := u64mul total_tokens PLATFORM_TOKEN_SHARE_BPS / BPS_DIVISOR
  let team_tokens := u64mul total_tokens TEAM_TOKEN_SHARE_BPS / BPS_DIVISOR
  let v ← okOr (checkedSub total_tokens platform_tokens) .MathError
  let yes_voter_tokens ← okOr (checkedSub v team_tokens) .MathError
  pure { m with pool_balance := ext.vault_rent_exempt,
                platform_tokens_allocated := platform_tokens,
                yes_voter_tokens_allocated := yes_voter_tokens }

/-- `resolve_market::handler`, including the `ResolveMarket` account
constraint `market.resolution == Unresolved @ AlreadyResolved`. -/
def resolve_market_handler (now : Int) (callerIsFounder : Bool) (m : Market)
    (ext : ResolveExt) : Except ErrorCode Market := do
  req (m.resolution = .Unresolved) .AlreadyResolved
  req (resolvePermitted now callerIsFounder m) .CannotResolveYet
  let resolution := decideResolution m
  let m' ← match resolution with
    | .YesWins => resolveYesWins m ext
    | .NoWins => do
        let vault_lamports := ext.vault_lamports
        let completion_fee := u64mul vault_lamports COMPLETION_FEE_BPS / BPS_DIVISOR
        let distribution_amount ← okOr (checkedSub vault_lamports completion_fee) .MathError
        let m := { m with pool_balance := distribution_amount }
        pure { m with distribution_pool := m.pool_balance }
    | .Refund => do
        let refund_pool ← okOr (checkedSub ext.vault_lamports ext.vault_rent_exempt) .MathError
        if 0 < refund_pool then
          pure { m with pool_balance := refund_pool }
        else
          pure m
    | .Unresolved => .error .InvalidResolutionState
  pure { m' with resolution := resolution }

/-! ## Claims (`src/instructions/claim_rewards.rs`)

`market_balance` is the lamport balance of the market account at claim time
(external).  The token-account validation of the `YesWins` path and the SPL
transfer are external; the token payout amount is still computed. -/

/-- `claim_rewards::handler`, including the `ClaimRewards` account
constraints (`resolution != Unresolved`, `!position.claimed`).  Returns the
updated market / position and the lamports paid to the user. -/
def claim_rewards_handler (m : Market) (p : Position) (market_balance : Nat) :
    Except ErrorCode (Market × Position × Nat) := do
  req (m.resolution ≠ .Unresolved) .InvalidResolutionState
  req (p.claimed = false) .AlreadyClaimed
  match m.resolution with
  | .YesWins => do
      req (0 < p.yes_shares) .InsufficientBalance
      req (0 < m.total_yes_shares) .MathError
      req (0 < m.yes_voter_tokens_allocated) .InsufficientBalance
      let user_tokens := u64cast (p.yes_shares * m.yes_voter_tokens_allocated
        / m.total_yes_shares)
      req (0 < user_tokens) .InsufficientBalance
      pure (m, { p with claimed := true }, 0)
  | .NoWins => do
      req (0 < p.no_shares) .InsufficientBalance
      req (0 < m.total_no_shares) .MathError
      req (0 < m.distribution_pool) .InsufficientBalance
      let user_payout := u64cast (p.no_shares * m.distribution_pool
        / m.total_no_shares)
      req (0 < user_payout) .InsufficientBalance
      req (user_payout ≤ market_balance) .InsufficientBalance
      let pool_balance' ← okOr (checkedSub m.pool_balance user_payout) .MathError
      pure ({ m with pool_balance := pool_balance' },
            { p with claimed := true }, user_payout)
  | .Refund => do
      let total_invested := p.total_invested
      req (0 < total_invested) .InsufficientBalance
      let refund_amount := u64cast (total_invested * (BPS_DIVISOR - TRADE_FEE_BPS)
        / BPS_DIVISOR)
      req (0 < refund_amount) .InsufficientBalance
      req (refund_amount ≤ market_balance) .InsufficientBalance
      let pool_balance' ← okOr (checkedSub m.pool_balance refund_amount) .MathError
      pure ({ m with pool_balance := pool_balance' },
            { p with claimed := true }, refund_amount)
  | .Unresolved => .error .InvalidResolutionState

/-! ## Market creation (`src/instructions/create_market.rs`)

String-length validation of the IPFS CID and metadata URI, the creation-fee
transfer, and vault-account creation are external to the modelled state.
`founder_excess_sol_allocated` is not assigned by the handler; Anchor's
`init` zeroes fresh account data, so it starts at 0. -/

def MIN_POOL_LAMPORTS : Nat := 500000000

/-- `create_market::handler` (state-relevant part, lines 72–146). -/
def create_market_handler (now : Int) (target_pool : Nat) (expiry_time : Int) :
    Except ErrorCode Market := do
  req (MIN_POOL_LAMPORTS ≤ target_pool) .InvalidTargetPool
  req (now < expiry_time) .MarketNotExpired
  pure { target_pool := target_pool, pool_balance := 0, distribution_pool := 0,
         yes_pool := target_pool, no_pool := target_pool,
         total_yes_shares := 0, total_no_shares := 0,
         expiry_time := expiry_time, phase := .Prediction,
         resolution := .Unresolved, platform_tokens_allocated := 0,
         yes_voter_tokens_allocated := 0, founder_excess_sol_allocated := 0 }

/-! ## Emergency drain (`src/instructions/emergency_drain_vault.rs`) -/

/-- `emergency_drain_vault::handler` (admin-gated; only market-state write is
`pool_balance := rent_exempt`). -/
def emergency_drain_vault_handler (callerIsAdmin : Bool) (m : Market)
    (vault_balance rent_exempt : Nat) : Except ErrorCode Market := do
  req (callerIsAdmin = true) .Unauthorized
  let transfer_amount := vault_balance - rent_exempt
  req (0 < transfer_amount) .InsufficientBalance
  pure { m with pool_balance := rent_exempt }

/-! ## Vesting state (`src/state/team_vesting.rs`, `src/state/founder_vesting.rs`) -/

structure TeamVesting where
  total_tokens : Nat
  immediate_tokens : Nat
  vesting_tokens : Nat
  claimed_tokens : Nat
  immediate_claimed : Bool
  vesting_start : Int
  vesting_duration : Int
  deriving DecidableEq, Repr

/-- `TeamVesting::calculate_unlocked_vested_tokens` (`team_vesting.rs` lines
68–88).  The `i64` `checked_sub` with `unwrap_or(0)` cannot overflow over
`Int`; the `as u64` cast of the `u128` quotient is `u64cast`. -/
def TeamVesting.calculate_unlocked_vested_tokens (tv : TeamVesting)
    (current_timestamp : Int) : Nat :=
  let elapsed := current_timestamp - tv.vesting_start
  if tv.vesting_duration ≤ elapsed then tv.vesting_tokens
  else if elapsed ≤ 0 then 0
  else u64cast (tv.vesting_tokens * elapsed.toNat / tv.vesting_duration.toNat)

/-- `TeamVesting::calculate_claimable_tokens` (`team_vesting.rs` lines
91–113).  Rust `saturating_sub` is `Nat` subtraction. -/
def TeamVesting.calculate_claimable_tokens (tv : TeamVesting)
    (current_timestamp : Int) : Except ErrorCode Nat := do
  let claimable : Nat := 0
  let claimable ←
    if tv.immediate_claimed = false then
      okOr (checkedAdd claimable tv.immediate_tokens) .AccountDidNotSerialize
    else pure claimable
  let unlocked_vested := tv.calculate_unlocked_vested_tokens current_timestamp
  let vested_claimed := tv.claimed_tokens -
    (if tv.immediate_claimed then tv.immediate_tokens else 0)
  let claimable_vested := unlocked_vested - vested_claimed
  okOr (checkedAdd claimable claimable_vested) .AccountDidNotSerialize

structure FounderVesting where
  total_sol : Nat
  immediate_sol : Nat
  vesting_sol : Nat
  claimed_sol : Nat
  immediate_claimed : Bool
  vesting_start : Int
  vesting_duration : Int
  deriving DecidableEq, Repr

/-- `FounderVesting::calculate_unlocked_vested_sol` (`founder_vesting.rs`
lines 178–198), textually identical to the team variant. -/
def FounderVesting.calculate_unlocked_vested_sol (fv : FounderVesting)
    (current_timestamp : Int) : Nat :=
  let elapsed := current_timestamp - fv.vesting_start
  if fv.vesting_duration ≤ elapsed then fv.vesting_sol
  else if elapsed ≤ 0 then 0
  else u64cast (fv.vesting_sol * elapsed.toNat / fv.vesting_duration.toNat)

/-- `FounderVesting::calculate_claimable_sol` (`founder_vesting.rs` lines
201–223). -/
def FounderVesting.calculate_claimable_sol (fv : FounderVesting)
    (current_timestamp : Int) : Except ErrorCode Nat := do
  let claimable : Nat := 0
  let claimable ←
    if fv.immediate_claimed = false then
      okOr (checkedAdd claimable fv.immediate_sol) .AccountDidNotSerialize
    else pure claimable
  let unlocked_vested := fv.calculate_unlocked_vested_sol current_timestamp
  let vested_claimed := fv.claimed_sol -
    (if fv.immediate_claimed then fv.immediate_sol else 0)
  let claimable_vested := unlocked_vested - vested_claimed
  okOr (checkedAdd claimable claimable_vested) .AccountDidNotSerialize

/-- Field-renaming bridge between the two structurally identical vesting
records. -/
def FounderVesting.toTeam (fv : FounderVesting) : TeamVesting :=
  { total_tokens := fv.total_sol, immediate_tokens := fv.immediate_sol,
    vesting_tokens := fv.vesting_sol, claimed_tokens := fv.claimed_sol,
    immediate_claimed := fv.immediate_claimed,
    vesting_start := fv.vesting_start,
    vesting_duration := fv.vesting_duration }

/-! ## Vesting claims (`src/instructions/claim_team_tokens.rs`,
`src/instructions/claim_founder_sol.rs`)

The SPL/SOL transfer is external; the state writes are the
`immediate_claimed` flag and `claimed_tokens`/`claimed_sol`. -/

/-- `claim_team_tokens::handler` (lines 54–127). -/
def claim_team_tokens_handler (now : Int) (tv : TeamVesting) :
    Except ErrorCode TeamVesting := do
  let claimable ← tv.calculate_claimable_tokens now
  req (0 < claimable) .InsufficientBalance
  let includes_immediate := tv.immediate_claimed = false ∧ 0 < tv.immediate_tokens
  let tv :=
    if tv.immediate_claimed = false ∧ 0 < tv.immediate_tokens then
      { tv with immediate_claimed := true }
    else tv
  let _ := includes_immediate
  let claimed' ← okOr (checkedAdd tv.claimed_tokens claimable) .MathError
  pure { tv with claimed_tokens := claimed' }

/-- `claim_founder_sol::handler` (lines 35–113). -/
def claim_founder_sol_handler (now : Int) (fv : FounderVesting) :
    Except ErrorCode FounderVesting := do
  let claimable ← fv.calculate_claimable_sol now
  req (0 < claimable) .NothingToClaim
  let fv :=
    if fv.immediate_claimed = false ∧ 0 < fv.immediate_sol then
      { fv with immediate_claimed := true }
    else fv
  let claimed' ← okOr (checkedAdd fv.claimed_sol claimable) .MathError
  pure { fv with claimed_sol := claimed' }

/-! ## Spec-side definition for the vesting refinement claim

These two follow the claim's wording (spec §4.4) and are compared against
the source-derived `calculate_claimable_tokens` above. -/

/-- Spec formula: `unlocked_vested` is `vesting_amount` when
`elapsed ≥ vesting_duration`, `0` when `elapsed ≤ 0`, else
`floor(vesting_amount * elapsed / vesting_duration)`. -/
def spec_unlocked_vested (vesting_amount : Nat)
    (vesting_start vesting_duration now : Int) : Int :=
  let elapsed := now - vesting_start
  if vesting_duration ≤ elapsed then (vesting_amount : Int)
  else if elapsed ≤ 0 then 0
  else (vesting_amount : Int) * elapsed / vesting_duration

/-- Spec formula: `claimable = immediate_part + max(0, unlocked_vested −
already_vested_claimed)` with `already_vested_claimed = claimed_amount −
(immediate_amount if immediate_claimed else 0)`. -/
def spec_claimable (immediate_amount vesting_amount claimed_amount : Nat)
    (immediate_claimed : Bool) (vesting_start vesting_duration now : Int) : Int :=
  let immediate_part : Int := if immediate_claimed then 0 else immediate_amount
  let unlocked := spec_unlocked_vested vesting_amount vesting_start vesting_duration now
  let already : Int :=
    (claimed_amount : Int) - (if immediate_claimed then (immediate_amount : Int) else 0)
  immediate_part + max 0 (unlocked - already)

/-! ## Step relations

Each constructor relates states across one *successful* instruction; a
failed instruction rolls back all account writes on-chain, so it induces no
step.  `MarketStep` covers every active instruction of `lib.rs` that writes
any modelled `Market` field (`create_market` is the initial state, not a
step; `init_team_vesting`, `init_founder_vesting`, `claim_platform_tokens`
write only the unmodelled one-shot flags `founder_vesting_initialized` /
`platform_tokens_claimed` and allocation reads; `close_market` /
`close_position` deallocate accounts; the legacy instructions and the
migrate instructions are not registered in `lib.rs`). -/

inductive MarketStep : Market → Market → Prop where
  | buyYes {m m' : Market} (now : Int) (p : Position) (amt : Nat) (p' : Position) :
      buy_yes_handler now m p amt = .ok (m', p') → MarketStep m m'
  | buyNo {m m' : Market} (now : Int) (p : Position) (amt : Nat) (p' : Position) :
      buy_no_handler now m p amt = .ok (m', p') → MarketStep m m'
  | extend {m m' : Market} (cf : Bool) :
      extend_market_handler cf m = .ok m' → MarketStep m m'
  | resolve {m m' : Market} (now : Int) (cf : Bool) (ext : ResolveExt) :
      resolve_market_handler now cf m ext = .ok m' → MarketStep m m'
  | claim {m m' : Market} (p : Position) (mb : Nat) (p' : Position) (paid : Nat) :
      claim_rewards_handler m p mb = .ok (m', p', paid) → MarketStep m m'
  | drain {m m' : Market} (adm : Bool) (vb re : Nat) :
      emergency_drain_vault_handler adm m vb re = .ok m' → MarketStep m m'

/-- Markets reachable through the trading lifecycle the buy-path cap governs:
creation followed by buys and the Prediction→Funding extension. -/
inductive TradeReach : Market → Prop where
  | created {m : Market} (now : Int) (target : Nat) (expiry : Int) :
      create_market_handler now target expiry = .ok m → TradeReach m
  | buyYes {m m' : Market} (now : Int) (p : Position) (amt : Nat) (p' : Position) :
      TradeReach m → buy_yes_handler now m p amt = .ok (m', p') → TradeReach m'
  | buyNo {m m' : Market} (now : Int) (p : Position) (amt : Nat) (p' : Position) :
      TradeReach m → buy_no_handler now m p amt = .ok (m', p') → TradeReach m'
  | extend {m m' : Market} (cf : Bool) :
      TradeReach m → extend_market_handler cf m = .ok m' → TradeReach m'

/-- One participant's position on one market across a sequence of buys,
starting from the lazily initialized empty position. -/
inductive BuySeqReach : Market → Position → Prop where
  | init (m : Market) : BuySeqReach m .init
  | buyYes {m p m' p'} (now : Int) (amt : Nat) :
      BuySeqReach m p → buy_yes_handler now m p amt = .ok (m', p') →
      BuySeqReach m' p'
  | buyNo {m p m' p'} (now : Int) (amt : Nat) :
      BuySeqReach m p → buy_no_handler now m p amt = .ok (m', p') →
      BuySeqReach m' p'

/-- Team-vesting schedules reachable from initialization
(`init_team_vesting.rs` sets `claimed_tokens = 0`,
`immediate_claimed = false`, and `u64` token amounts) by claims at
arbitrary times. -/
inductive TeamVestReach : TeamVesting → Prop where
  | init (tv : TeamVesting) : tv.claimed_tokens = 0 →
      tv.immediate_claimed = false → tv.immediate_tokens < U64MOD →
      tv.vesting_tokens < U64MOD → TeamVestReach tv
  | claim {tv tv' : TeamVesting} (now : Int) : TeamVestReach tv →
      claim_team_tokens_handler now tv = .ok tv' → TeamVestReach tv'

/-- Founder-vesting schedules reachable from initialization
(`init_founder_vesting.rs`) by claims at arbitrary times. -/
inductive FounderVestReach : FounderVesting → Prop where
  | init (fv : FounderVesting) : fv.claimed_sol = 0 →
      fv.immediate_claimed = false → fv.immediate_sol < U64MOD →
      fv.vesting_sol < U64MOD → FounderVestReach fv
  | claim {fv fv' : FounderVesting} (now : Int) : FounderVestReach fv →
      claim_founder_sol_handler now fv = .ok fv' → FounderVestReach fv'

/-! # Theorems -/

/-! ## General helper lemmas -/

theorem req_ok_iff {c : Prop} [Decidable c] {e : ErrorCode} {u : Unit} :
    req c e = .ok u ↔ c := by
  unfold req
  split
  · simp [*]
  · simp; assumption

theorem okOr_ok_iff {o : Option α} {e : ErrorCode} {a : α} :
    okOr o e = .ok a ↔ o = some a := by
  unfold okOr
  cases o <;> simp

theorem checkedAdd_ok {a b c : Nat} (h : checkedAdd a b = some c) :
    c = a + b ∧ a + b < U64MOD := by
  unfold checkedAdd at h
  split at h <;> simp_all

theorem checkedSub_ok {a b c : Nat} (h : checkedSub a b = some c) :
    c = a - b ∧ b ≤ a := by
  unfold checkedSub at h
  split at h <;> simp_all

theorem u64cast_eq_of_lt {x : Nat} (h : x < U64MOD) : u64cast x = x :=
  Nat.mod_eq_of_lt h

theorem bind_req_ok {c : Prop} [Decidable c] {e : ErrorCode} {α : Type}
    {f : Unit → Except ErrorCode α} {r : α}
    (h : (req c e >>= f) = .ok r) : c ∧ f () = .ok r := by
  unfold req at h
  split at h
  · refine ⟨by assumption, ?_⟩
    simpa [Bind.bind, Except.bind] using h
  · exact absurd h (by simp [Bind.bind, Except.bind])

theorem bind_okOr_ok {β : Type} {o : Option β} {e : ErrorCode} {α : Type}
    {f : β → Except ErrorCode α} {r : α}
    (h : (okOr o e >>= f) = .ok r) : ∃ a, o = some a ∧ f a = .ok r := by
  cases o with
  | none => exact absurd h (by simp [okOr, Bind.bind, Except.bind])
  | some a =>
    refine ⟨a, rfl, ?_⟩
    simpa [okOr, Bind.bind, Except.bind] using h

theorem bind_exc_ok {β : Type} {x : Except ErrorCode β} {α : Type}
    {f : β → Except ErrorCode α} {r : α}
    (h : (x >>= f) = .ok r) : ∃ a, x = .ok a ∧ f a = .ok r := by
  cases x with
  | error e => exact absurd h (by simp [Bind.bind, Except.bind])
  | ok a =>
    refine ⟨a, rfl, ?_⟩
    simpa [Bind.bind, Except.bind] using h

theorem req_bind_pos {c : Prop} [Decidable c] {e : ErrorCode} {α : Type}
    (hc : c) (f : Unit → Except ErrorCode α) : (req c e >>= f) = f () := by
  simp [req, hc, Bind.bind, Except.bind]

theorem req_bind_neg {c : Prop} [Decidable c] {e : ErrorCode} {α : Type}
    (hc : ¬c) (f : Unit → Except ErrorCode α) : (req c e >>= f) = .error e := by
  simp [req, hc, Bind.bind, Except.bind]

theorem checkedAdd_some {a b : Nat} (h : a + b < U64MOD) :
    checkedAdd a b = some (a + b) := by
  simp [checkedAdd, h]

theorem checkedSub_some {a b : Nat} (h : b ≤ a) :
    checkedSub a b = some (a - b) := by
  simp [checkedSub, h]

/-- Everything a successful `computeFeeAndCap` run implies, with the capped
Prediction-phase branch fully characterized. -/
theorem computeFeeAndCap_spec {m : Market} {sol a f n : Nat}
    (hok : computeFeeAndCap m sol = .ok (a, f, n)) :
    u64mul sol TRADE_FEE_BPS / BPS_DIVISOR ≤ sol ∧
    (if m.phase = .Prediction then
      m.pool_balance ≤ m.target_pool ∧
      (if m.target_pool - m.pool_balance <
          sol - u64mul sol TRADE_FEE_BPS / BPS_DIVISOR then
        n = m.target_pool - m.pool_balance ∧
        a = u64mul n BPS_DIVISOR / (BPS_DIVISOR - TRADE_FEE_BPS) ∧
        n ≤ a ∧ f = a - n
      else
        a = sol ∧ f = u64mul sol TRADE_FEE_BPS / BPS_DIVISOR ∧
        n = sol - u64mul sol TRADE_FEE_BPS / BPS_DIVISOR)
    else
      a = sol ∧ f = u64mul sol TRADE_FEE_BPS / BPS_DIVISOR ∧
      n = sol - u64mul sol TRADE_FEE_BPS / BPS_DIVISOR) := by
  rcases h0 : checkedSub sol (u64mul sol TRADE_FEE_BPS / BPS_DIVISOR)
    with _ | net0 <;>
    simp only [computeFeeAndCap, h0, okOr, Bind.bind, Except.bind] at hok
  · exact Except.noConfusion hok
  have ⟨hnet0, hfee0⟩ := checkedSub_ok h0
  refine ⟨hfee0, ?_⟩
  by_cases hphase : m.phase = .Prediction
  · rw [if_pos hphase] at hok ⊢
    rcases h1 : checkedSub m.target_pool m.pool_balance with _ | rem <;>
      simp only [h1, okOr, Bind.bind, Except.bind] at hok
    · exact Except.noConfusion hok
    have ⟨hrem, hpool⟩ := checkedSub_ok h1
    refine ⟨hpool, ?_⟩
    by_cases hlt : rem < net0
    · rw [if_pos hlt] at hok
      rcases h2 : checkedSub
          (u64mul rem BPS_DIVISOR / (BPS_DIVISOR - TRADE_FEE_BPS)) rem
        with _ | fee <;>
        simp only [h2, okOr, Bind.bind, Except.bind, pure, Except.pure] at hok
      · exact Except.noConfusion hok
      have ⟨hfee, hle⟩ := checkedSub_ok h2
      simp only [Except.ok.injEq, Prod.mk.injEq] at hok
      obtain ⟨ha, hf, hn⟩ := hok
      rw [if_pos (by omega)]
      subst hn
      exact ⟨by omega, by omega, by omega, by omega⟩
    · rw [if_neg hlt] at hok
      simp only [pure, Except.pure, Except.ok.injEq, Prod.mk.injEq] at hok
      obtain ⟨ha, hf, hn⟩ := hok
      rw [if_neg (by omega)]
      exact ⟨ha.symm, hf.symm, by omega⟩
  · rw [if_neg hphase] at hok ⊢
    simp only [pure, Except.pure, Except.ok.injEq, Prod.mk.injEq] at hok
    obtain ⟨ha, hf, hn⟩ := hok
    exact ⟨ha.symm, hf.symm, by omega⟩

/-! ## C5: capped-buy reverse fee calculation round-trips -/

/-- Core arithmetic of the reverse fee calculation: for a capped net `n`
whose charge computation does not overflow `u64`, the charged amount
`a = floor(n·10000/9850)` and fee `a − n` are recovered exactly by the
forward rule `fee = floor(a·150/10000)`, `net = a − fee`. -/
theorem reverse_fee_roundtrip (n a : Nat) (hn : n * BPS_DIVISOR < U64MOD)
    (ha : a = u64mul n BPS_DIVISOR / (BPS_DIVISOR - TRADE_FEE_BPS)) :
    n ≤ a ∧ u64mul a TRADE_FEE_BPS / BPS_DIVISOR = a - n ∧
      a - u64mul a TRADE_FEE_BPS / BPS_DIVISOR = n := by
  simp only [TRADE_FEE_BPS, BPS_DIVISOR, U64MOD] at *
  rw [show (10000 - 150 : Nat) = 9850 by norm_num] at ha
  have hmul : u64mul n 10000 = n * 10000 := Nat.mod_eq_of_lt hn
  rw [hmul] at ha
  have hdm1 := Nat.div_add_mod (n * 10000) 9850
  have hmod1 : n * 10000 % 9850 < 9850 := Nat.mod_lt _ (by norm_num)
  have hle : a * 9850 ≤ n * 10000 := by
    rw [ha]; exact Nat.div_mul_le_self _ _
  have hmul2 : u64mul a 150 = a * 150 := by
    apply Nat.mod_eq_of_lt
    calc a * 150 ≤ a * 9850 := Nat.mul_le_mul_left _ (by norm_num)
      _ ≤ n * 10000 := hle
      _ < 2 ^ 64 := hn
  rw [hmul2]
  have hdm2 := Nat.div_add_mod (a * 150) 10000
  have hmod2 : a * 150 % 10000 < 10000 := Nat.mod_lt _ (by norm_num)
  omega

/-- C5: in the capped Prediction-phase buy path (shared by `buy_yes` and
`buy_no`), the capped net `n = target_pool − pool_balance` is charged
`actual = floor(n·10000/9850)` with `fee = actual − n`, and (absent `u64`
overflow of `n·10000`) the forward fee rule applied to `actual` recovers
exactly this fee and net, so the cap introduces no rounding profit. -/
theorem C5_capped_fee_roundtrip (m : Market) (sol a f n : Nat)
    (hphase : m.phase = .Prediction)
    (hok : computeFeeAndCap m sol = .ok (a, f, n))
    (htrig : m.target_pool - m.pool_balance <
      sol - u64mul sol TRADE_FEE_BPS / BPS_DIVISOR) :
    n = m.target_pool - m.pool_balance ∧
    a = u64mul n BPS_DIVISOR / (BPS_DIVISOR - TRADE_FEE_BPS) ∧
    f = a - n ∧
    (n * BPS_DIVISOR < U64MOD →
      u64mul a TRADE_FEE_BPS / BPS_DIVISOR = f ∧
      a - u64mul a TRADE_FEE_BPS / BPS_DIVISOR = n) := by
  have hs := computeFeeAndCap_spec hok
  rw [if_pos hphase] at hs
  obtain ⟨hfee0, _, hcap⟩ := hs
  rw [if_pos htrig] at hcap
  obtain ⟨hn, ha, hna, hf⟩ := hcap
  refine ⟨hn, ha, hf, fun hov => ?_⟩
  have := reverse_fee_roundtrip n a hov ha
  exact ⟨by omega, by omega⟩

/-! ## C6: constant-product preservation under a quote -/

/-- What a successful YES-side quote implies (`calculate_shares_from_sol`,
`buy_yes = true` branch). -/
theorem shares_yes_spec {y n d s : Nat}
    (hok : calculate_shares_from_sol y n d true = .ok s) :
    (0 < y ∧ 0 < n) ∧ (d = 0 → s = 0) ∧
    (0 < d → s = u64cast (y - y * n / (n + d)) ∧
      y * n / (n + d) ≤ y ∧ 10000000 ≤ y * n / (n + d)) := by
  unfold calculate_shares_from_sol at hok
  split at hok
  · exact Except.noConfusion hok
  case isFalse hnz =>
    refine ⟨by omega, ?_⟩
    split at hok
    case isTrue hd0 =>
      simp only [Except.ok.injEq] at hok
      exact ⟨fun _ => hok.symm, fun hd => absurd hd0 (by omega)⟩
    case isFalse hd0 =>
      rw [if_pos rfl] at hok
      refine ⟨fun hd => absurd hd (by omega), fun _ => ?_⟩
      dsimp only at hok
      split at hok
      · exact Except.noConfusion hok
      case isFalse hsub =>
        split at hok
        · exact Except.noConfusion hok
        case isFalse hguard =>
          simp only [Except.ok.injEq] at hok
          exact ⟨hok.symm, by omega, by omega⟩

/-- What a successful NO-side quote implies (`calculate_shares_from_sol`,
`buy_yes = false` branch). -/
theorem shares_no_spec {y n d s : Nat}
    (hok : calculate_shares_from_sol y n d false = .ok s) :
    (0 < y ∧ 0 < n) ∧ (d = 0 → s = 0) ∧
    (0 < d → s = u64cast (n - y * n / (y + d)) ∧
      y * n / (y + d) ≤ n ∧ 10000000 ≤ y * n / (y + d)) := by
  unfold calculate_shares_from_sol at hok
  split at hok
  · exact Except.noConfusion hok
  case isFalse hnz =>
    refine ⟨by omega, ?_⟩
    split at hok
    case isTrue hd0 =>
      simp only [Except.ok.injEq] at hok
      exact ⟨fun _ => hok.symm, fun hd => absurd hd0 (by omega)⟩
    case isFalse hd0 =>
      rw [if_neg (by simp)] at hok
      refine ⟨fun hd => absurd hd (by omega), fun _ => ?_⟩
      dsimp only at hok
      split at hok
      · exact Except.noConfusion hok
      case isFalse hsub =>
        split at hok
        · exact Except.noConfusion hok
        case isFalse hguard =>
          simp only [Except.ok.injEq] at hok
          exact ⟨hok.symm, by omega, by omega⟩

/-- Shared arithmetic: if the post-trade bought-side reserve is the floored
quotient `k / opp'` and the minimum-liquidity guard passed, the new product
never exceeds `k` and loses less than a thousandth of `k`. -/
theorem k_floor_bound (k opp' : Nat) (hopp : 0 < opp')
    (hguard : 10000000 ≤ k / opp') :
    (k / opp') * opp' ≤ k ∧ 1000 * (k - (k / opp') * opp') < k := by
  have h1 : (k / opp') * opp' ≤ k := Nat.div_mul_le_self k opp'
  have hdm : (k / opp') * opp' + k % opp' = k := by
    rw [Nat.mul_comm]
    exact Nat.div_add_mod k opp'
  have hr : k - (k / opp') * opp' = k % opp' := by omega
  have hmod : k % opp' < opp' := Nat.mod_lt _ hopp
  refine ⟨h1, ?_⟩
  rw [hr]
  calc 1000 * (k % opp') < 1000 * opp' :=
        mul_lt_mul_of_pos_left hmod (by norm_num)
    _ ≤ 10000000 * opp' := Nat.mul_le_mul_right _ (by norm_num)
    _ ≤ (k / opp') * opp' := Nat.mul_le_mul_right _ hguard
    _ ≤ k := h1

/-- C6: for every `(yes_pool, no_pool, deposit)` accepted by
`calculate_shares_from_sol` (either side), applying the quote — removing the
shares from the bought-side reserve and adding the deposit to the opposite
reserve — keeps the constant product within a strict 0.1% band, with the
rounding error only ever shrinking it: `new_k ≤ old_k` and
`1000·(old_k − new_k) < old_k`. -/
theorem C6_amm_k_preserved (y n d s : Nat) (hy : y < U64MOD) (hn : n < U64MOD) :
    (calculate_shares_from_sol y n d true = .ok s →
      (y - s) * (n + d) ≤ y * n ∧
      1000 * (y * n - (y - s) * (n + d)) < y * n) ∧
    (calculate_shares_from_sol y n d false = .ok s →
      (n - s) * (y + d) ≤ y * n ∧
      1000 * (y * n - (n - s) * (y + d)) < y * n) := by
  constructor
  · intro hok
    obtain ⟨⟨hy0, hn0⟩, hz, hp⟩ := shares_yes_spec hok
    rcases Nat.eq_zero_or_pos d with hd | hd
    · subst hd
      rw [hz rfl]
      simp only [Nat.sub_zero, Nat.add_zero]
      exact ⟨le_refl _, by simpa using Nat.mul_pos hy0 hn0⟩
    · obtain ⟨hs, hqy, hguard⟩ := hp hd
      have hcast : s = y - y * n / (n + d) := by
        rw [hs]; exact u64cast_eq_of_lt (by omega)
      have hys : y - s = y * n / (n + d) := by omega
      rw [hys]
      exact k_floor_bound (y * n) (n + d) (by omega) hguard
  · intro hok
    obtain ⟨⟨hy0, hn0⟩, hz, hp⟩ := shares_no_spec hok
    rcases Nat.eq_zero_or_pos d with hd | hd
    · subst hd
      rw [hz rfl]
      simp only [Nat.sub_zero, Nat.add_zero]
      exact ⟨le_of_eq (Nat.mul_comm n y), by
        rw [Nat.mul_comm n y]
        simpa using Nat.mul_pos hy0 hn0⟩
    · obtain ⟨hs, hqn, hguard⟩ := hp hd
      have hcast : s = n - y * n / (y + d) := by
        rw [hs]; exact u64cast_eq_of_lt (by omega)
      have hns : n - s = y * n / (y + d) := by omega
      rw [hns, Nat.mul_comm (y * n / (y + d)) (y + d)]
      have := k_floor_bound (y * n) (y + d) (by omega) hguard
      rw [Nat.mul_comm (y * n / (y + d)) (y + d)] at this
      exact this

/-- C6 witness: a concrete accepted YES quote (equal 1000-SOL-scale reserves,
deposit 100 SOL-scale) whose application keeps `k` within the band. -/
theorem C6_witness :
    calculate_shares_from_sol 1000000000000 1000000000000 100000000000 true =
      .ok 90909090910 ∧
    (1000000000000 - 90909090910) * (1000000000000 + 100000000000) ≤
      1000000000000 * 1000000000000 ∧
    1000 * (1000000000000 * 1000000000000 -
      (1000000000000 - 90909090910) * (1000000000000 + 100000000000)) <
      1000000000000 * 1000000000000 :=
  ⟨rfl, (C6_amm_k_preserved 1000000000000 1000000000000 100000000000
    90909090910 (by norm_num [U64MOD]) (by norm_num [U64MOD])).1 rfl⟩

/-! ## Handler inversion lemmas -/

/-- Everything a successful `buy_yes` run implies. -/
theorem buy_yes_spec {now : Int} {m : Market} {p : Position} {amt : Nat}
    {m' : Market} {p' : Position}
    (hok : buy_yes_handler now m p amt = .ok (m', p')) :
    m.resolution = .Unresolved ∧ now < m.expiry_time ∧
    MIN_INVESTMENT_LAMPORTS ≤ amt ∧ p.no_shares = 0 ∧
    ∃ a f nn s, computeFeeAndCap m amt = .ok (a, f, nn) ∧
      calculate_shares_from_sol m.yes_pool m.no_pool nn true = .ok s ∧
      0 < s ∧ s ≤ m.yes_pool ∧
      m' = { m with pool_balance := m.pool_balance + nn,
                    yes_pool := m.yes_pool - s, no_pool := m.no_pool + nn,
                    total_yes_shares := m.total_yes_shares + s } ∧
      p' = { p with yes_shares := p.yes_shares + s,
                    total_invested := p.total_invested + a } := by
  unfold buy_yes_handler at hok
  obtain ⟨h1, hok⟩ := bind_req_ok hok
  obtain ⟨h2, hok⟩ := bind_req_ok hok
  obtain ⟨h3, hok⟩ := bind_req_ok hok
  obtain ⟨⟨a, f, nn⟩, hcf, hok⟩ := bind_exc_ok hok
  dsimp only at hok
  obtain ⟨h4, hok⟩ := bind_req_ok hok
  obtain ⟨pb, hpb, hok⟩ := bind_okOr_ok hok
  obtain ⟨s, hsh, hok⟩ := bind_exc_ok hok
  obtain ⟨h5, hok⟩ := bind_req_ok hok
  obtain ⟨yp, hyp, hok⟩ := bind_okOr_ok hok
  obtain ⟨np, hnp, hok⟩ := bind_okOr_ok hok
  obtain ⟨ty, hty, hok⟩ := bind_okOr_ok hok
  obtain ⟨py, hpy, hok⟩ := bind_okOr_ok hok
  obtain ⟨pi, hpi, hok⟩ := bind_okOr_ok hok
  simp only [pure, Except.pure, Except.ok.injEq, Prod.mk.injEq] at hok
  obtain ⟨hm', hp'⟩ := hok
  obtain ⟨hpbe, -⟩ := checkedAdd_ok hpb
  obtain ⟨hype, hsle⟩ := checkedSub_ok hyp
  obtain ⟨hnpe, -⟩ := checkedAdd_ok hnp
  obtain ⟨htye, -⟩ := checkedAdd_ok hty
  obtain ⟨hpye, -⟩ := checkedAdd_ok hpy
  obtain ⟨hpie, -⟩ := checkedAdd_ok hpi
  subst hpbe hype hnpe htye hpye hpie
  exact ⟨h1, h2, h3, h4, a, f, nn, s, hcf, hsh, h5, hsle,
    hm'.symm, hp'.symm⟩

/-- Everything a successful `buy_no` run implies. -/
theorem buy_no_spec {now : Int} {m : Market} {p : Position} {amt : Nat}
    {m' : Market} {p' : Position}
    (hok : buy_no_handler now m p amt = .ok (m', p')) :
    m.resolution = .Unresolved ∧ now < m.expiry_time ∧
    MIN_INVESTMENT_LAMPORTS ≤ amt ∧ p.yes_shares = 0 ∧
    ∃ a f nn s, computeFeeAndCap m amt = .ok (a, f, nn) ∧
      calculate_shares_from_sol m.yes_pool m.no_pool nn false = .ok s ∧
      0 < s ∧ s ≤ m.no_pool ∧
      m' = { m with pool_balance := m.pool_balance + nn,
                    yes_pool := m.yes_pool + nn, no_pool := m.no_pool - s,
                    total_no_shares := m.total_no_shares + s } ∧
      p' = { p with no_shares := p.no_shares + s,
                    total_invested := p.total_invested + a } := by
  unfold buy_no_handler at hok
  obtain ⟨h1, hok⟩ := bind_req_ok hok
  obtain ⟨h2, hok⟩ := bind_req_ok hok
  obtain ⟨h3, hok⟩ := bind_req_ok hok
  obtain ⟨⟨a, f, nn⟩, hcf, hok⟩ := bind_exc_ok hok
  dsimp only at hok
  obtain ⟨h4, hok⟩ := bind_req_ok hok
  obtain ⟨pb, hpb, hok⟩ := bind_okOr_ok hok
  obtain ⟨s, hsh, hok⟩ := bind_exc_ok hok
  obtain ⟨h5, hok⟩ := bind_req_ok hok
  obtain ⟨np, hnp, hok⟩ := bind_okOr_ok hok
  obtain ⟨yp, hyp, hok⟩ := bind_okOr_ok hok
  obtain ⟨tn, htn, hok⟩ := bind_okOr_ok hok
  obtain ⟨pn, hpn, hok⟩ := bind_okOr_ok hok
  obtain ⟨pi, hpi, hok⟩ := bind_okOr_ok hok
  simp only [pure, Except.pure, Except.ok.injEq, Prod.mk.injEq] at hok
  obtain ⟨hm', hp'⟩ := hok
  obtain ⟨hpbe, -⟩ := checkedAdd_ok hpb
  obtain ⟨hnpe, hsle⟩ := checkedSub_ok hnp
  obtain ⟨hype, -⟩ := checkedAdd_ok hyp
  obtain ⟨htne, -⟩ := checkedAdd_ok htn
  obtain ⟨hpne, -⟩ := checkedAdd_ok hpn
  obtain ⟨hpie, -⟩ := checkedAdd_ok hpi
  subst hpbe hnpe hype htne hpne hpie
  exact ⟨h1, h2, h3, h4, a, f, nn, s, hcf, hsh, h5, hsle,
    hm'.symm, hp'.symm⟩

/-- `buy_yes` by a NO-holder is rejected with `AlreadyHasPosition` whenever
the preceding guards pass. -/
theorem buy_yes_conflict {now : Int} {m : Market} {p : Position} {amt : Nat}
    (h1 : m.resolution = .Unresolved) (h2 : now < m.expiry_time)
    (h3 : MIN_INVESTMENT_LAMPORTS ≤ amt) {afn : Nat × Nat × Nat}
    (hcf : computeFeeAndCap m amt = .ok afn) (hc : p.no_shares ≠ 0) :
    buy_yes_handler now m p amt = .error .AlreadyHasPosition := by
  unfold buy_yes_handler
  rw [req_bind_pos h1, req_bind_pos h2, req_bind_pos h3, hcf]
  obtain ⟨a, f, nn⟩ := afn
  simp only [Bind.bind, Except.bind]
  exact req_bind_neg hc _

/-- `buy_no` by a YES-holder is rejected with `AlreadyHasPosition` whenever
the preceding guards pass. -/
theorem buy_no_conflict {now : Int} {m : Market} {p : Position} {amt : Nat}
    (h1 : m.resolution = .Unresolved) (h2 : now < m.expiry_time)
    (h3 : MIN_INVESTMENT_LAMPORTS ≤ amt) {afn : Nat × Nat × Nat}
    (hcf : computeFeeAndCap m amt = .ok afn) (hc : p.yes_shares ≠ 0) :
    buy_no_handler now m p amt = .error .AlreadyHasPosition := by
  unfold buy_no_handler
  rw [req_bind_pos h1, req_bind_pos h2, req_bind_pos h3, hcf]
  obtain ⟨a, f, nn⟩ := afn
  simp only [Bind.bind, Except.bind]
  exact req_bind_neg hc _

/-- Everything a successful `create_market` run implies. -/
theorem create_market_spec {now : Int} {target : Nat} {expiry : Int} {m : Market}
    (hok : create_market_handler now target expiry = .ok m) :
    MIN_POOL_LAMPORTS ≤ target ∧ now < expiry ∧
    m = { target_pool := target, pool_balance := 0, distribution_pool := 0,
          yes_pool := target, no_pool := target, total_yes_shares := 0,
          total_no_shares := 0, expiry_time := expiry, phase := .Prediction,
          resolution := .Unresolved, platform_tokens_allocated := 0,
          yes_voter_tokens_allocated := 0,
          founder_excess_sol_allocated := 0 } := by
  unfold create_market_handler at hok
  obtain ⟨h1, hok⟩ := bind_req_ok hok
  obtain ⟨h2, hok⟩ := bind_req_ok hok
  simp only [pure, Except.pure, Except.ok.injEq] at hok
  exact ⟨h1, h2, hok.symm⟩

/-- Everything a successful `extend_market` run implies. -/
theorem extend_market_spec {cf : Bool} {m m' : Market}
    (hok : extend_market_handler cf m = .ok m') :
    cf = true ∧ m.phase = .Prediction ∧ m.resolution = .Unresolved ∧
    m.target_pool ≤ m.pool_balance ∧ m.total_no_shares < m.total_yes_shares ∧
    m' = { m with phase := .Funding } := by
  unfold extend_market_handler at hok
  obtain ⟨h1, hok⟩ := bind_req_ok hok
  obtain ⟨h2, hok⟩ := bind_req_ok hok
  obtain ⟨h3, hok⟩ := bind_req_ok hok
  obtain ⟨h4, hok⟩ := bind_req_ok hok
  obtain ⟨h5, hok⟩ := bind_req_ok hok
  simp only [pure, Except.pure, Except.ok.injEq] at hok
  exact ⟨h1, h2, h3, h4, h5, hok.symm⟩

/-- Everything a successful `emergency_drain_vault` run implies. -/
theorem emergency_drain_spec {adm : Bool} {m m' : Market} {vb re : Nat}
    (hok : emergency_drain_vault_handler adm m vb re = .ok m') :
    adm = true ∧ re < vb ∧ m' = { m with pool_balance := re } := by
  unfold emergency_drain_vault_handler at hok
  obtain ⟨h1, hok⟩ := bind_req_ok hok
  dsimp only at hok
  obtain ⟨h2, hok⟩ := bind_req_ok hok
  simp only [pure, Except.pure, Except.ok.injEq] at hok
  exact ⟨h1, by omega, hok.symm⟩

set_option maxRecDepth 8000 in
/-- The `YesWins` branch of resolution leaves `resolution`,
`distribution_pool`, `target_pool`, both share totals and `phase`
untouched. -/
theorem resolveYesWins_spec {m : Market} {ext : ResolveExt} {m' : Market}
    (hok : resolveYesWins m ext = .ok m') :
    m'.resolution = m.resolution ∧ m'.distribution_pool = m.distribution_pool ∧
    m'.target_pool = m.target_pool ∧ m'.total_yes_shares = m.total_yes_shares ∧
    m'.total_no_shares = m.total_no_shares ∧ m'.phase = m.phase := by
  unfold resolveYesWins at hok
  obtain ⟨saf, hsaf, hok⟩ := bind_okOr_ok hok
  dsimp only at hok
  obtain ⟨namt, hnamt, hok⟩ := bind_okOr_ok hok
  obtain ⟨h1, hok⟩ := bind_req_ok hok
  obtain ⟨h2, hok⟩ := bind_req_ok hok
  split at hok
  · obtain ⟨fv, hfv, hok⟩ := bind_okOr_ok hok
    obtain ⟨y, hy, hok⟩ := bind_exc_ok hok
    simp only [pure, Except.pure, Except.ok.injEq] at hy
    subst hy
    obtain ⟨v, hv, hok⟩ := bind_okOr_ok hok
    obtain ⟨yv, hyv, hok⟩ := bind_okOr_ok hok
    simp only [pure, Except.pure, Except.ok.injEq] at hok
    rw [← hok]
    exact ⟨rfl, rfl, rfl, rfl, rfl, rfl⟩
  · obtain ⟨y, hy, hok⟩ := bind_exc_ok hok
    simp only [pure, Except.pure, Except.ok.injEq] at hy
    subst hy
    obtain ⟨v, hv, hok⟩ := bind_okOr_ok hok
    obtain ⟨yv, hyv, hok⟩ := bind_okOr_ok hok
    simp only [pure, Except.pure, Except.ok.injEq] at hok
    rw [← hok]
    exact ⟨rfl, rfl, rfl, rfl, rfl, rfl⟩

set_option maxRecDepth 2000 in
/-- Everything a successful `resolve_market` run implies: the chosen outcome
is `decideResolution`, the snapshot totals are untouched, and for `NoWins`
the distribution pool is frozen at the post-completion-fee vault balance. -/
theorem resolve_spec {now : Int} {cf : Bool} {m : Market} {ext : ResolveExt}
    {m' : Market} (hok : resolve_market_handler now cf m ext = .ok m') :
    m.resolution = .Unresolved ∧ resolvePermitted now cf m ∧
    m'.resolution = decideResolution m ∧
    m'.target_pool = m.target_pool ∧
    m'.total_yes_shares = m.total_yes_shares ∧
    m'.total_no_shares = m.total_no_shares ∧
    (decideResolution m = .NoWins →
      u64mul ext.vault_lamports COMPLETION_FEE_BPS / BPS_DIVISOR ≤
        ext.vault_lamports ∧
      m'.distribution_pool = ext.vault_lamports -
        u64mul ext.vault_lamports COMPLETION_FEE_BPS / BPS_DIVISOR ∧
      m'.pool_balance = m'.distribution_pool) ∧
    (decideResolution m ≠ .NoWins →
      m'.distribution_pool = m.distribution_pool) := by
  unfold resolve_market_handler at hok
  obtain ⟨h1, hok⟩ := bind_req_ok hok
  obtain ⟨h2, hok⟩ := bind_req_ok hok
  dsimp only at hok
  refine ⟨h1, h2, ?_⟩
  rcases hd : decideResolution m with _ | _ | _ | _ <;> rw [hd] at hok
  · exact absurd hok (by simp [Bind.bind, Except.bind])
  · obtain ⟨mi, hmi, hok⟩ := bind_exc_ok hok
    simp only [pure, Except.pure, Except.ok.injEq] at hok
    obtain ⟨hr, hdp, ht, hty, htn, hph⟩ := resolveYesWins_spec hmi
    rw [← hok]
    exact ⟨rfl, ht, hty, htn, fun hc => absurd hc (by simp),
      fun _ => hdp⟩
  · obtain ⟨da, hda, hok⟩ := bind_okOr_ok hok
    obtain ⟨hdae, hfee⟩ := checkedSub_ok hda
    simp only [pure, Except.pure, Except.ok.injEq, Bind.bind,
      Except.bind] at hok
    rw [← hok]
    refine ⟨rfl, rfl, rfl, rfl, fun _ => ⟨hfee, by simpa using hdae, rfl⟩,
      fun hc => absurd rfl hc⟩
  · obtain ⟨rp, hrp, hok⟩ := bind_okOr_ok hok
    obtain ⟨hrpe, hre⟩ := checkedSub_ok hrp
    split at hok
    · obtain ⟨y, hy, hok⟩ := bind_exc_ok hok
      simp only [pure, Except.pure, Except.ok.injEq] at hy hok
      subst hy
      rw [← hok]
      exact ⟨rfl, rfl, rfl, rfl, fun hc => absurd hc (by simp), fun _ => rfl⟩
    · obtain ⟨y, hy, hok⟩ := bind_exc_ok hok
      simp only [pure, Except.pure, Except.ok.injEq] at hy hok
      subst hy
      rw [← hok]
      exact ⟨rfl, rfl, rfl, rfl, fun hc => absurd hc (by simp), fun _ => rfl⟩

/-- Fields every successful `claim_rewards` run preserves, plus the one-shot
flag behaviour and the balance bound on the paid amount. -/
theorem claim_preserves {m : Market} {p : Position} {mb : Nat} {m' : Market}
    {p' : Position} {paid : Nat}
    (hok : claim_rewards_handler m p mb = .ok (m', p', paid)) :
    m'.resolution = m.resolution ∧
    m'.distribution_pool = m.distribution_pool ∧
    m'.total_no_shares = m.total_no_shares ∧
    m'.total_yes_shares = m.total_yes_shares ∧
    m'.target_pool = m.target_pool ∧ m'.phase = m.phase ∧
    p.claimed = false ∧ p'.claimed = true ∧ paid ≤ mb := by
  unfold claim_rewards_handler at hok
  obtain ⟨h1, hok⟩ := bind_req_ok hok
  obtain ⟨h2, hok⟩ := bind_req_ok hok
  rcases hd : m.resolution with _ | _ | _ | _ <;> rw [hd] at hok
  · exact absurd hd h1
  · obtain ⟨h3, hok⟩ := bind_req_ok hok
    obtain ⟨h4, hok⟩ := bind_req_ok hok
    obtain ⟨h5, hok⟩ := bind_req_ok hok
    dsimp only at hok
    obtain ⟨h6, hok⟩ := bind_req_ok hok
    simp only [pure, Except.pure, Except.ok.injEq, Prod.mk.injEq] at hok
    obtain ⟨hm', hp', hpaid⟩ := hok
    rw [← hm', ← hp', ← hpaid]
    exact ⟨hd, rfl, rfl, rfl, rfl, rfl, h2, rfl, by omega⟩
  · obtain ⟨h3, hok⟩ := bind_req_ok hok
    obtain ⟨h4, hok⟩ := bind_req_ok hok
    obtain ⟨h5, hok⟩ := bind_req_ok hok
    dsimp only at hok
    obtain ⟨h6, hok⟩ := bind_req_ok hok
    obtain ⟨h7, hok⟩ := bind_req_ok hok
    obtain ⟨pb, hpb, hok⟩ := bind_okOr_ok hok
    simp only [pure, Except.pure, Except.ok.injEq, Prod.mk.injEq] at hok
    obtain ⟨hm', hp', hpaid⟩ := hok
    rw [← hm', ← hp', ← hpaid]
    exact ⟨rfl, rfl, rfl, rfl, rfl, rfl, h2, rfl, h7⟩
  · dsimp only at hok
    obtain ⟨h3, hok⟩ := bind_req_ok hok
    obtain ⟨h4, hok⟩ := bind_req_ok hok
    obtain ⟨h5, hok⟩ := bind_req_ok hok
    obtain ⟨pb, hpb, hok⟩ := bind_okOr_ok hok
    simp only [pure, Except.pure, Except.ok.injEq, Prod.mk.injEq] at hok
    obtain ⟨hm', hp', hpaid⟩ := hok
    rw [← hm', ← hp', ← hpaid]
    exact ⟨rfl, rfl, rfl, rfl, rfl, rfl, h2, rfl, h5⟩

/-- Everything a successful `NoWins` claim implies: the payment is exactly
the pro-rata floor formula over the frozen `distribution_pool`. -/
theorem claim_nowins_spec {m : Market} {p : Position} {mb : Nat} {m' : Market}
    {p' : Position} {paid : Nat}
    (hok : claim_rewards_handler m p mb = .ok (m', p', paid))
    (hres : m.resolution = .NoWins) :
    p.claimed = false ∧ 0 < p.no_shares ∧ 0 < m.total_no_shares ∧
    0 < m.distribution_pool ∧
    paid = u64cast (p.no_shares * m.distribution_pool / m.total_no_shares) ∧
    0 < paid ∧ paid ≤ mb ∧ paid ≤ m.pool_balance ∧
    m' = { m with pool_balance := m.pool_balance - paid } ∧
    p' = { p with claimed := true } := by
  unfold claim_rewards_handler at hok
  obtain ⟨h1, hok⟩ := bind_req_ok hok
  obtain ⟨h2, hok⟩ := bind_req_ok hok
  rw [hres] at hok
  obtain ⟨h3, hok⟩ := bind_req_ok hok
  obtain ⟨h4, hok⟩ := bind_req_ok hok
  obtain ⟨h5, hok⟩ := bind_req_ok hok
  dsimp only at hok
  obtain ⟨h6, hok⟩ := bind_req_ok hok
  obtain ⟨h7, hok⟩ := bind_req_ok hok
  obtain ⟨pb, hpb, hok⟩ := bind_okOr_ok hok
  obtain ⟨hpbe, hple⟩ := checkedSub_ok hpb
  simp only [pure, Except.pure, Except.ok.injEq, Prod.mk.injEq] at hok
  obtain ⟨hm', hp', hpaid⟩ := hok
  subst hpaid
  exact ⟨h2, h3, h4, h5, rfl, h6, h7, hple,
    by rw [← hm', hpbe, hres], hp'.symm⟩

/-- Everything a successful `Refund` claim implies: the refund is exactly
`floor(total_invested · 9850 / 10000)`. -/
theorem claim_refund_spec {m : Market} {p : Position} {mb : Nat} {m' : Market}
    {p' : Position} {paid : Nat}
    (hok : claim_rewards_handler m p mb = .ok (m', p', paid))
    (hres : m.resolution = .Refund) :
    p.claimed = false ∧ 0 < p.total_invested ∧
    paid = u64cast (p.total_invested * (BPS_DIVISOR - TRADE_FEE_BPS)
      / BPS_DIVISOR) ∧
    0 < paid ∧ paid ≤ mb ∧ paid ≤ m.pool_balance ∧
    m' = { m with pool_balance := m.pool_balance - paid } ∧
    p' = { p with claimed := true } := by
  unfold claim_rewards_handler at hok
  obtain ⟨h1, hok⟩ := bind_req_ok hok
  obtain ⟨h2, hok⟩ := bind_req_ok hok
  rw [hres] at hok
  dsimp only at hok
  obtain ⟨h3, hok⟩ := bind_req_ok hok
  obtain ⟨h4, hok⟩ := bind_req_ok hok
  obtain ⟨h5, hok⟩ := bind_req_ok hok
  obtain ⟨pb, hpb, hok⟩ := bind_okOr_ok hok
  obtain ⟨hpbe, hple⟩ := checkedSub_ok hpb
  simp only [pure, Except.pure, Except.ok.injEq, Prod.mk.injEq] at hok
  obtain ⟨hm', hp', hpaid⟩ := hok
  subst hpaid
  exact ⟨h2, h3, rfl, h4, h5, hple, by rw [← hm', hpbe, hres], hp'.symm⟩

/-- C5 witness: a concrete capped buy (target 0.5 SOL, pool 0.4 SOL,
request 0.2 SOL) where the cap charges 101522842 lamports for the capped
net 100000000, and the forward rule recovers fee 1522842 and net
100000000. -/
theorem C5_witness :
    ∃ a f n, computeFeeAndCap
        { target_pool := 500000000, pool_balance := 400000000,
          distribution_pool := 0, yes_pool := 500000000,
          no_pool := 500000000, total_yes_shares := 0, total_no_shares := 0,
          expiry_time := 100, phase := .Prediction,
          resolution := .Unresolved, platform_tokens_allocated := 0,
          yes_voter_tokens_allocated := 0,
          founder_excess_sol_allocated := 0 } 200000000 = .ok (a, f, n) ∧
      n = 100000000 ∧ a = 101522842 ∧ f = a - n ∧
      u64mul a TRADE_FEE_BPS / BPS_DIVISOR = f ∧
      a - u64mul a TRADE_FEE_BPS / BPS_DIVISOR = n := by
  refine ⟨101522842, 1522842, 100000000, ?_⟩
  have hok : computeFeeAndCap
      { target_pool := 500000000, pool_balance := 400000000,
        distribution_pool := 0, yes_pool := 500000000,
        no_pool := 500000000, total_yes_shares := 0, total_no_shares := 0,
        expiry_time := 100, phase := .Prediction,
        resolution := .Unresolved, platform_tokens_allocated := 0,
        yes_voter_tokens_allocated := 0,
        founder_excess_sol_allocated := 0 } 200000000 =
      .ok (101522842, 1522842, 100000000) := rfl
  have h := C5_capped_fee_roundtrip _ 200000000 101522842 1522842 100000000
    rfl hok (by norm_num [u64mul, U64MOD, TRADE_FEE_BPS, BPS_DIVISOR])
  obtain ⟨hn, ha, hf, hrt⟩ := h
  have hrt' := hrt (by norm_num [BPS_DIVISOR, U64MOD])
  exact ⟨hok, by omega, by omega, by omega, by omega, by omega⟩

/-! ## C3: fixed-point YES/NO price conservation -/

/-- C3 (amended): for every reserve pair accepted by the price queries (not
both zero), the fixed-point prices satisfy
`10^9 − 1 ≤ get_yes_price + get_no_price ≤ 10^9`; the sum equals `10^9`
exactly only up to one unit of floor rounding. -/
theorem C3_price_sum_within_one (y n : Nat) (h : ¬(y = 0 ∧ n = 0)) :
    ∃ yp np, get_yes_price y n = .ok yp ∧ get_no_price y n = .ok np ∧
      999999999 ≤ yp + np ∧ yp + np ≤ 1000000000 := by
  have ht : 0 < y + n := by omega
  have hy : get_yes_price y n = .ok (u64cast (n * 1000000000 / (y + n))) := by
    unfold get_yes_price
    rw [if_neg h, if_neg (by omega)]
  have hn : get_no_price y n = .ok (u64cast (y * 1000000000 / (y + n))) := by
    unfold get_no_price
    rw [if_neg h, if_neg (by omega)]
  have hle1 : n * 1000000000 / (y + n) ≤ 1000000000 := by
    calc n * 1000000000 / (y + n) ≤ (y + n) * 1000000000 / (y + n) :=
          Nat.div_le_div_right (Nat.mul_le_mul_right _ (by omega))
      _ = 1000000000 := Nat.mul_div_cancel_left _ ht
  have hle2 : y * 1000000000 / (y + n) ≤ 1000000000 := by
    calc y * 1000000000 / (y + n) ≤ (y + n) * 1000000000 / (y + n) :=
          Nat.div_le_div_right (Nat.mul_le_mul_right _ (by omega))
      _ = 1000000000 := Nat.mul_div_cancel_left _ ht
  have hc1 : u64cast (n * 1000000000 / (y + n)) = n * 1000000000 / (y + n) :=
    u64cast_eq_of_lt (lt_of_le_of_lt hle1 (by norm_num [U64MOD]))
  have hc2 : u64cast (y * 1000000000 / (y + n)) = y * 1000000000 / (y + n) :=
    u64cast_eq_of_lt (lt_of_le_of_lt hle2 (by norm_num [U64MOD]))
  refine ⟨_, _, hy, hn, ?_, ?_⟩ <;> rw [hc1, hc2]
  · have hsum : (n * 1000000000 + y * 1000000000) / (y + n) =
        n * 1000000000 / (y + n) + y * 1000000000 / (y + n) +
          if y + n ≤ n * 1000000000 % (y + n) + y * 1000000000 % (y + n)
          then 1 else 0 := Nat.add_div ht
    have htot : (n * 1000000000 + y * 1000000000) / (y + n) = 1000000000 := by
      rw [show n * 1000000000 + y * 1000000000 = (y + n) * 1000000000 by ring]
      exact Nat.mul_div_cancel_left _ ht
    rw [htot] at hsum
    split at hsum <;> omega
  · have hsum : (n * 1000000000 + y * 1000000000) / (y + n) =
        n * 1000000000 / (y + n) + y * 1000000000 / (y + n) +
          if y + n ≤ n * 1000000000 % (y + n) + y * 1000000000 % (y + n)
          then 1 else 0 := Nat.add_div ht
    have htot : (n * 1000000000 + y * 1000000000) / (y + n) = 1000000000 := by
      rw [show n * 1000000000 + y * 1000000000 = (y + n) * 1000000000 by ring]
      exact Nat.mul_div_cancel_left _ ht
    rw [htot] at hsum
    split at hsum <;> omega

/-- C3 counterexample to the claim as stated: at reserves `(1, 2)` — accepted
by both price queries — the prices are `666666666` and `333333333`, whose sum
is `999999999 ≠ 10^9`, so the sum is not fixed-point exact for all pairs. -/
theorem C3_counterexample :
    get_yes_price 1 2 = .ok 666666666 ∧ get_no_price 1 2 = .ok 333333333 ∧
      666666666 + 333333333 ≠ 1000000000 := by
  refine ⟨rfl, rfl, by decide⟩

/-- C3 witness: the amended bound instantiated at reserves `(1, 2)`. -/
theorem C3_witness :
    ∃ yp np, get_yes_price 1 2 = .ok yp ∧ get_no_price 1 2 = .ok np ∧
      999999999 ≤ yp + np ∧ yp + np ≤ 1000000000 :=
  C3_price_sum_within_one 1 2 (by decide)

/-! ## C1: resolution outcome priority and determinism -/

/-- C1: on every market on which `resolve_market` runs successfully (so
`resolution = Unresolved` and the permission predicate held), the chosen
outcome follows exactly the priority `pool_balance < target_pool → Refund`,
then `total_yes_shares > total_no_shares → YesWins`, then
`total_no_shares > total_yes_shares → NoWins`, else `Refund`; and any other
successful resolution of a market agreeing on
`(pool_balance, target_pool, total_yes_shares, total_no_shares)` — whatever
the caller, clock or external inputs — picks the same outcome. -/
theorem C1_resolution_outcome (now : Int) (cf : Bool) (ext : ResolveExt)
    (m m' : Market) (hok : resolve_market_handler now cf m ext = .ok m') :
    (m'.resolution =
      if m.pool_balance < m.target_pool then MarketResolution.Refund
      else if m.total_no_shares < m.total_yes_shares then .YesWins
      else if m.total_yes_shares < m.total_no_shares then .NoWins
      else .Refund) ∧
    (∀ (now₂ : Int) (cf₂ : Bool) (ext₂ : ResolveExt) (m₂ m₂' : Market),
      m₂.pool_balance = m.pool_balance → m₂.target_pool = m.target_pool →
      m₂.total_yes_shares = m.total_yes_shares →
      m₂.total_no_shares = m.total_no_shares →
      resolve_market_handler now₂ cf₂ m₂ ext₂ = .ok m₂' →
      m₂'.resolution = m'.resolution) := by
  have h := resolve_spec hok
  refine ⟨h.2.2.1, ?_⟩
  intro now₂ cf₂ ext₂ m₂ m₂' hpb htp hty htn hok₂
  have h₂ := resolve_spec hok₂
  rw [h₂.2.2.1, h.2.2.1]
  unfold decideResolution
  rw [hpb, htp, hty, htn]

/-- C1 witness: a concrete expired market below target resolves to `Refund`
through `resolve_market`, matching the priority order. -/
theorem C1_witness :
    ∃ m', resolve_market_handler 100 false
      { target_pool := 500000000, pool_balance := 0, distribution_pool := 0,
        yes_pool := 500000000, no_pool := 500000000, total_yes_shares := 7,
        total_no_shares := 3, expiry_time := 50, phase := .Prediction,
        resolution := .Unresolved, platform_tokens_allocated := 0,
        yes_voter_tokens_allocated := 0, founder_excess_sol_allocated := 0 }
      { vault_lamports := 1000000, vault_rent_exempt := 1000000,
        virtual_token_reserves := 1, virtual_sol_reserves := 1,
        cpi_ok := true, total_tokens := 0 } = .ok m' ∧
    m'.resolution = .Refund := by
  refine ⟨_, rfl, ?_⟩
  have h := C1_resolution_outcome 100 false
    { vault_lamports := 1000000, vault_rent_exempt := 1000000,
      virtual_token_reserves := 1, virtual_sol_reserves := 1,
      cpi_ok := true, total_tokens := 0 }
    { target_pool := 500000000, pool_balance := 0, distribution_pool := 0,
      yes_pool := 500000000, no_pool := 500000000, total_yes_shares := 7,
      total_no_shares := 3, expiry_time := 50, phase := .Prediction,
      resolution := .Unresolved, platform_tokens_allocated := 0,
      yes_voter_tokens_allocated := 0, founder_excess_sol_allocated := 0 }
    _ rfl
  rw [h.1]
  norm_num

/-! ## C9: resolution is one-shot and monotonic -/

/-- C9: resolving an already-resolved market fails with `AlreadyResolved`
(leaving state unchanged, as every failed instruction rolls back), and no
successful instruction of the program ever changes a non-`Unresolved`
resolution value. -/
theorem C9_resolution_oneshot :
    (∀ (now : Int) (cf : Bool) (m : Market) (ext : ResolveExt),
      m.resolution ≠ .Unresolved →
      resolve_market_handler now cf m ext = .error .AlreadyResolved) ∧
    (∀ m m' : Market, MarketStep m m' → m.resolution ≠ .Unresolved →
      m'.resolution = m.resolution) := by
  constructor
  · intro now cf m ext hres
    unfold resolve_market_handler
    exact req_bind_neg hres _
  · intro m m' hstep hres
    cases hstep with
    | buyYes now p amt p' h => exact absurd (buy_yes_spec h).1 hres
    | buyNo now p amt p' h => exact absurd (buy_no_spec h).1 hres
    | extend cf h => exact absurd (extend_market_spec h).2.2.1 hres
    | resolve now cf ext h => exact absurd (resolve_spec h).1 hres
    | claim p mb p' paid h => exact (claim_preserves h).1
    | drain adm vb re h => rw [(emergency_drain_spec h).2.2]

/-- C9 witness: a concrete `NoWins`-resolved market rejects a second
resolution with `AlreadyResolved`, and a successful claim step on it leaves
the resolution at `NoWins`. -/
theorem C9_witness :
    resolve_market_handler 100 false
      { target_pool := 500000000, pool_balance := 475000000,
        distribution_pool := 475000000, yes_pool := 500000000,
        no_pool := 500000000, total_yes_shares := 3, total_no_shares := 7,
        expiry_time := 50, phase := .Prediction, resolution := .NoWins,
        platform_tokens_allocated := 0, yes_voter_tokens_allocated := 0,
        founder_excess_sol_allocated := 0 }
      { vault_lamports := 0, vault_rent_exempt := 0,
        virtual_token_reserves := 1, virtual_sol_reserves := 1,
        cpi_ok := true, total_tokens := 0 } = .error .AlreadyResolved :=
  C9_resolution_oneshot.1 100 false
    { target_pool := 500000000, pool_balance := 475000000,
      distribution_pool := 475000000, yes_pool := 500000000,
      no_pool := 500000000, total_yes_shares := 3, total_no_shares := 7,
      expiry_time := 50, phase := .Prediction, resolution := .NoWins,
      platform_tokens_allocated := 0, yes_voter_tokens_allocated := 0,
      founder_excess_sol_allocated := 0 }
    { vault_lamports := 0, vault_rent_exempt := 0,
      virtual_token_reserves := 1, virtual_sol_reserves := 1,
      cpi_ok := true, total_tokens := 0 } (by decide)

/-! ## C2: frozen distribution pool and no over-distribution -/

theorem div_add_div_le (a b c : Nat) : a / c + b / c ≤ (a + b) / c := by
  rcases Nat.eq_zero_or_pos c with hc | hc
  · subst hc; simp
  · rw [Nat.le_div_iff_mul_le hc]
    have ha := Nat.div_mul_le_self a c
    have hb := Nat.div_mul_le_self b c
    calc (a / c + b / c) * c = a / c * c + b / c * c := by ring
      _ ≤ a + b := by omega

theorem sum_map_div_le (dp T : Nat) (l : List Nat) :
    (l.map fun s => s * dp / T).sum ≤ l.sum * dp / T := by
  induction l with
  | nil => simp
  | cons x xs ih =>
    simp only [List.map_cons, List.sum_cons]
    calc x * dp / T + (xs.map fun s => s * dp / T).sum
        ≤ x * dp / T + xs.sum * dp / T := by omega
      _ ≤ (x * dp + xs.sum * dp) / T := div_add_div_le _ _ _
      _ = (x + xs.sum) * dp / T := by rw [Nat.add_mul]

/-- C2: (i) a `NoWins` resolution freezes `distribution_pool` at the
post-completion-fee vault balance (equal to the new `pool_balance`);
(ii) once a market is resolved, no successful instruction changes
`distribution_pool`; (iii) every successful `NoWins` claim pays exactly
`floor(no_shares · distribution_pool / total_no_shares)`, a function of the
frozen snapshot and the position alone — independent of claim order; and
(iv) for any collection of share counts summing to at most
`total_no_shares`, the payouts sum to at most `distribution_pool`. -/
theorem C2_distribution_snapshot :
    (∀ (now : Int) (cf : Bool) (m : Market) (ext : ResolveExt) (m' : Market),
      resolve_market_handler now cf m ext = .ok m' →
      decideResolution m = .NoWins →
      m'.resolution = .NoWins ∧
      u64mul ext.vault_lamports COMPLETION_FEE_BPS / BPS_DIVISOR ≤
        ext.vault_lamports ∧
      m'.distribution_pool = ext.vault_lamports -
        u64mul ext.vault_lamports COMPLETION_FEE_BPS / BPS_DIVISOR ∧
      m'.pool_balance = m'.distribution_pool) ∧
    (∀ m m' : Market, MarketStep m m' → m.resolution ≠ .Unresolved →
      m'.distribution_pool = m.distribution_pool) ∧
    (∀ (m : Market) (p : Position) (mb : Nat) (m' : Market) (p' : Position)
      (paid : Nat),
      claim_rewards_handler m p mb = .ok (m', p', paid) →
      m.resolution = .NoWins → m.distribution_pool < U64MOD →
      p.no_shares ≤ m.total_no_shares →
      paid = p.no_shares * m.distribution_pool / m.total_no_shares) ∧
    (∀ (dp T : Nat) (shares : List Nat), 0 < T → shares.sum ≤ T →
      (shares.map fun s => s * dp / T).sum ≤ dp) := by
  refine ⟨?_, ?_, ?_, ?_⟩
  · intro now cf m ext m' hok hno
    have h := resolve_spec hok
    obtain ⟨hfee, hdp, hpb⟩ := h.2.2.2.2.2.2.1 hno
    exact ⟨h.2.2.1.trans hno, hfee, hdp, hpb⟩
  · intro m m' hstep hres
    cases hstep with
    | buyYes now p amt p' h => exact absurd (buy_yes_spec h).1 hres
    | buyNo now p amt p' h => exact absurd (buy_no_spec h).1 hres
    | extend cf h => exact absurd (extend_market_spec h).2.2.1 hres
    | resolve now cf ext h => exact absurd (resolve_spec h).1 hres
    | claim p mb p' paid h => exact (claim_preserves h).2.1
    | drain adm vb re h => rw [(emergency_drain_spec h).2.2]
  · intro m p mb m' p' paid hok hres hdp hle
    have h := claim_nowins_spec hok hres
    rw [h.2.2.2.2.1]
    apply u64cast_eq_of_lt
    have h1 : p.no_shares * m.distribution_pool / m.total_no_shares ≤
        m.distribution_pool := by
      have h2 : p.no_shares * m.distribution_pool ≤
          m.total_no_shares * m.distribution_pool :=
        Nat.mul_le_mul_right _ hle
      calc p.no_shares * m.distribution_pool / m.total_no_shares
          ≤ m.total_no_shares * m.distribution_pool / m.total_no_shares :=
            Nat.div_le_div_right h2
        _ = m.distribution_pool := Nat.mul_div_cancel_left _ h.2.2.1
    omega
  · intro dp T shares hT hsum
    calc (shares.map fun s => s * dp / T).sum ≤ shares.sum * dp / T :=
          sum_map_div_le dp T shares
      _ ≤ T * dp / T := Nat.div_le_div_right (Nat.mul_le_mul_right _ hsum)
      _ = dp := Nat.mul_div_cancel_left _ hT

/-- C2 witness: the spec's own scenario — two NO holders with 30 and 70 of
100 total shares against a frozen pool of 95 claim 28 and 66, summing to at
most 95; instantiated through the theorem's parts (iii) and (iv). -/
theorem C2_witness :
    ∃ m' p' paid, claim_rewards_handler
      { target_pool := 500000000, pool_balance := 95,
        distribution_pool := 95, yes_pool := 500000000,
        no_pool := 500000000, total_yes_shares := 3, total_no_shares := 100,
        expiry_time := 50, phase := .Prediction, resolution := .NoWins,
        platform_tokens_allocated := 0, yes_voter_tokens_allocated := 0,
        founder_excess_sol_allocated := 0 }
      { yes_shares := 0, no_shares := 30, total_invested := 40,
        claimed := false } 95 = .ok (m', p', paid) ∧
    paid = 30 * 95 / 100 ∧ paid = 28 ∧
    (([30, 70] : List Nat).map fun s => s * 95 / 100).sum ≤ 95 := by
  refine ⟨_, _, _, rfl, ?_, by decide, ?_⟩
  · exact C2_distribution_snapshot.2.2.1
      { target_pool := 500000000, pool_balance := 95,
        distribution_pool := 95, yes_pool := 500000000,
        no_pool := 500000000, total_yes_shares := 3, total_no_shares := 100,
        expiry_time := 50, phase := .Prediction, resolution := .NoWins,
        platform_tokens_allocated := 0, yes_voter_tokens_allocated := 0,
        founder_excess_sol_allocated := 0 }
      { yes_shares := 0, no_shares := 30, total_invested := 40,
        claimed := false } 95 _ _ _ rfl rfl (by norm_num [U64MOD]) (by decide)
  · exact C2_distribution_snapshot.2.2.2 95 100 [30, 70] (by decide) (by decide)

/-! ## C4: payout vs held balance (reject, not clamp) -/

/-- C4 (amended): every payout path of `claim_rewards` compares the
computed payout with the actually-held market balance immediately before
the transfer and fails the whole claim with `InsufficientBalance` when the
computed payout exceeds the held balance (and likewise when the computed
payout is zero); a successful claim always pays the exact computed amount —
never an amount truncated to the held balance. -/
theorem C4_payout_balance_check :
    (∀ (m : Market) (p : Position) (mb : Nat) (m' : Market) (p' : Position)
      (paid : Nat), claim_rewards_handler m p mb = .ok (m', p', paid) →
      paid ≤ mb) ∧
    (∀ (m : Market) (p : Position) (mb : Nat) (m' : Market) (p' : Position)
      (paid : Nat), claim_rewards_handler m p mb = .ok (m', p', paid) →
      m.resolution = .NoWins →
      paid = u64cast (p.no_shares * m.distribution_pool
        / m.total_no_shares)) ∧
    (∀ (m : Market) (p : Position) (mb : Nat), m.resolution = .NoWins →
      p.claimed = false → 0 < p.no_shares → 0 < m.total_no_shares →
      0 < m.distribution_pool →
      mb < u64cast (p.no_shares * m.distribution_pool / m.total_no_shares) →
      claim_rewards_handler m p mb = .error .InsufficientBalance) ∧
    (∀ (m : Market) (p : Position) (mb : Nat), m.resolution = .Refund →
      p.claimed = false → 0 < p.total_invested →
      mb < u64cast (p.total_invested * (BPS_DIVISOR - TRADE_FEE_BPS)
        / BPS_DIVISOR) →
      claim_rewards_handler m p mb = .error .InsufficientBalance) := by
  refine ⟨?_, ?_, ?_, ?_⟩
  · intro m p mb m' p' paid hok
    exact (claim_preserves hok).2.2.2.2.2.2.2.2
  · intro m p mb m' p' paid hok hres
    exact (claim_nowins_spec hok hres).2.2.2.2.1
  · intro m p mb hres hcl h1 h2 h3 hlt
    unfold claim_rewards_handler
    rw [req_bind_pos (by simp [hres]), req_bind_pos hcl, hres]
    try dsimp only
    rw [req_bind_pos h1, req_bind_pos h2, req_bind_pos h3]
    try dsimp only
    rw [req_bind_pos (show 0 < u64cast (p.no_shares * m.distribution_pool
      / m.total_no_shares) by omega)]
    exact req_bind_neg (by omega) _
  · intro m p mb hres hcl h1 hlt
    unfold claim_rewards_handler
    rw [req_bind_pos (by simp [hres]), req_bind_pos hcl, hres]
    try dsimp only
    rw [req_bind_pos h1]
    rw [req_bind_pos (show 0 < u64cast (p.total_invested *
      (BPS_DIVISOR - TRADE_FEE_BPS) / BPS_DIVISOR) by omega)]
    exact req_bind_neg (by omega) _

/-- C4 counterexample to the claim as stated: a `NoWins` position whose
computed payout is 100 while the market account holds only 50.  The claim
says the payout is truncated to 50 and paid; the code instead fails the
whole claim with `InsufficientBalance`. -/
theorem C4_counterexample :
    u64cast (10 * 100 / 10) = 100 ∧ (50 : Nat) < 100 ∧
    claim_rewards_handler
      { target_pool := 500000000, pool_balance := 100,
        distribution_pool := 100, yes_pool := 500000000,
        no_pool := 500000000, total_yes_shares := 3, total_no_shares := 10,
        expiry_time := 50, phase := .Prediction, resolution := .NoWins,
        platform_tokens_allocated := 0, yes_voter_tokens_allocated := 0,
        founder_excess_sol_allocated := 0 }
      { yes_shares := 0, no_shares := 10, total_invested := 40,
        claimed := false } 50 = .error .InsufficientBalance :=
  ⟨rfl, by decide, rfl⟩

/-- C4 witness: part (iii) of the amended statement instantiated at the
same concrete over-balance claim. -/
theorem C4_witness :
    claim_rewards_handler
      { target_pool := 500000000, pool_balance := 100,
        distribution_pool := 100, yes_pool := 500000000,
        no_pool := 500000000, total_yes_shares := 3, total_no_shares := 10,
        expiry_time := 50, phase := .Prediction, resolution := .NoWins,
        platform_tokens_allocated := 0, yes_voter_tokens_allocated := 0,
        founder_excess_sol_allocated := 0 }
      { yes_shares := 0, no_shares := 10, total_invested := 40,
        claimed := false } 50 = .error .InsufficientBalance :=
  C4_payout_balance_check.2.2.1
    { target_pool := 500000000, pool_balance := 100,
      distribution_pool := 100, yes_pool := 500000000,
      no_pool := 500000000, total_yes_shares := 3, total_no_shares := 10,
      expiry_time := 50, phase := .Prediction, resolution := .NoWins,
      platform_tokens_allocated := 0, yes_voter_tokens_allocated := 0,
      founder_excess_sol_allocated := 0 }
    { yes_shares := 0, no_shares := 10, total_invested := 40,
      claimed := false } 50 rfl rfl (by decide) (by decide) (by decide)
    (by norm_num [u64cast, U64MOD])

/-! ## C8: one position per participant per market -/

/-- C8: across every sequence of buys by one participant on one market the
position never holds both sides (`yes_shares > 0 → no_shares = 0` and vice
versa); a `buy_yes` by a NO-holder and a `buy_no` by a YES-holder never
succeed, and fail precisely with `AlreadyHasPosition` whenever the earlier
guards pass (a failed instruction leaves the position unchanged). -/
theorem C8_one_position :
    (∀ (m : Market) (p : Position), BuySeqReach m p →
      (0 < p.yes_shares → p.no_shares = 0) ∧
      (0 < p.no_shares → p.yes_shares = 0)) ∧
    (∀ (now : Int) (m : Market) (p : Position) (amt : Nat)
      (r : Market × Position), p.no_shares ≠ 0 →
      buy_yes_handler now m p amt ≠ .ok r) ∧
    (∀ (now : Int) (m : Market) (p : Position) (amt : Nat)
      (r : Market × Position), p.yes_shares ≠ 0 →
      buy_no_handler now m p amt ≠ .ok r) ∧
    (∀ (now : Int) (m : Market) (p : Position) (amt : Nat)
      (afn : Nat × Nat × Nat), m.resolution = .Unresolved →
      now < m.expiry_time → MIN_INVESTMENT_LAMPORTS ≤ amt →
      computeFeeAndCap m amt = .ok afn →
      (p.no_shares ≠ 0 →
        buy_yes_handler now m p amt = .error .AlreadyHasPosition) ∧
      (p.yes_shares ≠ 0 →
        buy_no_handler now m p amt = .error .AlreadyHasPosition)) := by
  refine ⟨?_, ?_, ?_, ?_⟩
  · intro m p hreach
    induction hreach with
    | init m => exact ⟨fun h => rfl, fun h => rfl⟩
    | buyYes now amt hr hok ih =>
      obtain ⟨-, -, -, h4, a, f, nn, s, -, -, -, -, -, hp'⟩ :=
        buy_yes_spec hok
      rw [hp']
      exact ⟨fun _ => h4, fun h => absurd h (by simp [h4])⟩
    | buyNo now amt hr hok ih =>
      obtain ⟨-, -, -, h4, a, f, nn, s, -, -, -, -, -, hp'⟩ :=
        buy_no_spec hok
      rw [hp']
      exact ⟨fun h => absurd h (by simp [h4]), fun _ => h4⟩
  · intro now m p amt r hc hok
    exact hc (buy_yes_spec hok).2.2.2.1
  · intro now m p amt r hc hok
    exact hc (buy_no_spec hok).2.2.2.1
  · intro now m p amt afn h1 h2 h3 hcf
    exact ⟨buy_yes_conflict h1 h2 h3 hcf, buy_no_conflict h1 h2 h3 hcf⟩

/-- C8 witness: a NO-holder's `buy_yes` on a live market is rejected with
`AlreadyHasPosition`, via part (iv) of the theorem at concrete inputs. -/
theorem C8_witness :
    buy_yes_handler 10
      { target_pool := 500000000, pool_balance := 0, distribution_pool := 0,
        yes_pool := 500000000, no_pool := 500000000, total_yes_shares := 0,
        total_no_shares := 5, expiry_time := 50, phase := .Prediction,
        resolution := .Unresolved, platform_tokens_allocated := 0,
        yes_voter_tokens_allocated := 0, founder_excess_sol_allocated := 0 }
      { yes_shares := 0, no_shares := 5, total_invested := 20000000,
        claimed := false } 20000000 = .error .AlreadyHasPosition :=
  (C8_one_position.2.2.2 10
    { target_pool := 500000000, pool_balance := 0, distribution_pool := 0,
      yes_pool := 500000000, no_pool := 500000000, total_yes_shares := 0,
      total_no_shares := 5, expiry_time := 50, phase := .Prediction,
      resolution := .Unresolved, platform_tokens_allocated := 0,
      yes_voter_tokens_allocated := 0, founder_excess_sol_allocated := 0 }
    { yes_shares := 0, no_shares := 5, total_invested := 20000000,
      claimed := false } 20000000 (20000000, 300000, 19700000) rfl
    (by decide) (by decide) rfl).1 (by decide)

/-! ## C10: pool balance never exceeds target in the Prediction phase -/

/-- C10: markets start at `pool_balance = 0`; every buy in the Prediction
phase caps its net deposit to `target_pool − pool_balance`, so along the
trading lifecycle (creation, buys, extension) `pool_balance ≤ target_pool`
whenever the phase is `Prediction`; and a buy attempted at
`pool_balance = target_pool` never succeeds — the capped net deposit of 0
yields zero shares, which the handler rejects. -/
theorem C10_pool_capped :
    (∀ m : Market, TradeReach m → m.phase = .Prediction →
      m.pool_balance ≤ m.target_pool) ∧
    (∀ (now : Int) (m : Market) (p : Position) (amt : Nat)
      (r : Market × Position), m.phase = .Prediction →
      m.pool_balance = m.target_pool →
      buy_yes_handler now m p amt ≠ .ok r ∧
      buy_no_handler now m p amt ≠ .ok r) := by
  have hbuy : ∀ (m : Market) (amt a f nn : Nat),
      computeFeeAndCap m amt = .ok (a, f, nn) → m.phase = .Prediction →
      m.pool_balance ≤ m.target_pool ∧
      nn ≤ m.target_pool - m.pool_balance := by
    intro m amt a f nn hcf hphase
    have hs := computeFeeAndCap_spec hcf
    rw [if_pos hphase] at hs
    obtain ⟨hfee, hpool, hcap⟩ := hs
    split at hcap
    · exact ⟨hpool, le_of_eq hcap.1⟩
    · exact ⟨hpool, by omega⟩
  constructor
  · intro m hreach
    induction hreach with
    | created now target expiry hok =>
      intro _
      rw [(create_market_spec hok).2.2]
      exact Nat.zero_le _
    | buyYes now p amt p' hr hok ih =>
      obtain ⟨-, -, -, -, a, f, nn, s, hcf, -, -, -, hm', -⟩ :=
        buy_yes_spec hok
      intro hphase'
      rw [hm'] at hphase' ⊢
      dsimp only at hphase' ⊢
      obtain ⟨hpool, hcap⟩ := hbuy _ _ _ _ _ hcf hphase'
      omega
    | buyNo now p amt p' hr hok ih =>
      obtain ⟨-, -, -, -, a, f, nn, s, hcf, -, -, -, hm', -⟩ :=
        buy_no_spec hok
      intro hphase'
      rw [hm'] at hphase' ⊢
      dsimp only at hphase' ⊢
      obtain ⟨hpool, hcap⟩ := hbuy _ _ _ _ _ hcf hphase'
      omega
    | extend cf hr hok ih =>
      intro hphase'
      rw [(extend_market_spec hok).2.2.2.2.2] at hphase'
      exact absurd hphase' (by simp)
  · intro now m p amt r hphase hfull
    have hnever : ∀ (nn : Nat) (a f : Nat),
        computeFeeAndCap m amt = .ok (a, f, nn) → nn = 0 := by
      intro nn a f hcf
      have := hbuy m amt a f nn hcf hphase
      omega
    constructor
    · intro hok
      obtain ⟨-, -, -, -, a, f, nn, s, hcf, hsh, hs, -, -, -⟩ :=
        buy_yes_spec hok
      have hnn := hnever nn a f hcf
      subst hnn
      have := (shares_yes_spec hsh).2.1 rfl
      omega
    · intro hok
      obtain ⟨-, -, -, -, a, f, nn, s, hcf, hsh, hs, -, -, -⟩ :=
        buy_no_spec hok
      have hnn := hnever nn a f hcf
      subst hnn
      have := (shares_no_spec hsh).2.1 rfl
      omega

/-! ## C7: vesting helper lemmas -/

/-- The unlocked amount only reads the three vesting fields. -/
theorem unlocked_congr {tv tv' : TeamVesting}
    (h1 : tv'.vesting_tokens = tv.vesting_tokens)
    (h2 : tv'.vesting_start = tv.vesting_start)
    (h3 : tv'.vesting_duration = tv.vesting_duration) (t : Int) :
    tv'.calculate_unlocked_vested_tokens t =
      tv.calculate_unlocked_vested_tokens t := by
  unfold TeamVesting.calculate_unlocked_vested_tokens
  rw [h1, h2, h3]

/-- The unlocked amount never exceeds `vesting_tokens`. -/
theorem unlocked_le (tv : TeamVesting) (t : Int)
    (hwf : tv.vesting_tokens < U64MOD) :
    tv.calculate_unlocked_vested_tokens t ≤ tv.vesting_tokens := by
  unfold TeamVesting.calculate_unlocked_vested_tokens
  dsimp only
  split
  · exact le_refl _
  split
  · exact Nat.zero_le _
  case isFalse h1 h2 =>
    have he : (0 : Int) < t - tv.vesting_start := by omega
    have hd : t - tv.vesting_start < tv.vesting_duration := by omega
    have hdn : 0 < tv.vesting_duration.toNat := by omega
    have hen : (t - tv.vesting_start).toNat ≤ tv.vesting_duration.toNat := by
      omega
    calc u64cast (tv.vesting_tokens * (t - tv.vesting_start).toNat /
          tv.vesting_duration.toNat)
        ≤ tv.vesting_tokens * (t - tv.vesting_start).toNat /
          tv.vesting_duration.toNat := Nat.mod_le _ _
      _ ≤ tv.vesting_tokens * tv.vesting_duration.toNat /
          tv.vesting_duration.toNat :=
          Nat.div_le_div_right (Nat.mul_le_mul_left _ hen)
      _ = tv.vesting_tokens := Nat.mul_div_cancel _ hdn

/-- The code's unlocked amount equals the spec's `unlocked_vested` formula. -/
theorem unlocked_matches_spec (tv : TeamVesting) (t : Int)
    (hwf : tv.vesting_tokens < U64MOD) :
    (tv.calculate_unlocked_vested_tokens t : Int) =
      spec_unlocked_vested tv.vesting_tokens tv.vesting_start
        tv.vesting_duration t := by
  unfold TeamVesting.calculate_unlocked_vested_tokens spec_unlocked_vested
  dsimp only
  split
  · rfl
  split
  · rfl
  case isFalse h1 h2 =>
    have he : (0 : Int) < t - tv.vesting_start := by omega
    have hd : t - tv.vesting_start < tv.vesting_duration := by omega
    have hdn : 0 < tv.vesting_duration.toNat := by omega
    have hen : (t - tv.vesting_start).toNat ≤ tv.vesting_duration.toNat := by
      omega
    have hle : tv.vesting_tokens * (t - tv.vesting_start).toNat /
        tv.vesting_duration.toNat ≤ tv.vesting_tokens := by
      calc tv.vesting_tokens * (t - tv.vesting_start).toNat /
            tv.vesting_duration.toNat
          ≤ tv.vesting_tokens * tv.vesting_duration.toNat /
            tv.vesting_duration.toNat :=
            Nat.div_le_div_right (Nat.mul_le_mul_left _ hen)
        _ = tv.vesting_tokens := Nat.mul_div_cancel _ hdn
    rw [u64cast_eq_of_lt (by omega)]
    rw [Int.natCast_ediv]
    show Int.ediv _ _ = _
    congr 1
    · push_cast
      rw [Int.toNat_of_nonneg (by omega)]
    · omega

/-- Characterization of a successful `calculate_claimable_tokens` run. -/
theorem calc_claimable_spec {tv : TeamVesting} {t : Int} {c : Nat}
    (hok : tv.calculate_claimable_tokens t = .ok c) :
    c = (if tv.immediate_claimed = true then 0 else tv.immediate_tokens) +
      (tv.calculate_unlocked_vested_tokens t -
        (tv.claimed_tokens -
          (if tv.immediate_claimed = true then tv.immediate_tokens else 0))) ∧
    c < U64MOD := by
  unfold TeamVesting.calculate_claimable_tokens at hok
  cases htv : tv.immediate_claimed with
  | false =>
    rw [htv] at hok
    rw [if_pos rfl] at hok
    obtain ⟨c1, hc1, hok⟩ := bind_okOr_ok hok
    obtain ⟨hc1e, -⟩ := checkedAdd_ok hc1
    dsimp only at hok
    rw [okOr_ok_iff] at hok
    obtain ⟨hc2e, hlt⟩ := checkedAdd_ok hok
    rw [if_neg (by simp), if_neg (by simp)]
    rw [if_neg (by simp)] at hc2e hlt
    omega
  | true =>
    rw [htv] at hok
    rw [if_neg (by simp)] at hok
    obtain ⟨c0, hc0, hok⟩ := bind_exc_ok hok
    simp only [pure, Except.pure, Except.ok.injEq] at hc0
    subst hc0
    dsimp only at hok
    rw [okOr_ok_iff] at hok
    obtain ⟨hc2e, hlt⟩ := checkedAdd_ok hok
    rw [if_pos rfl, if_pos rfl]
    rw [if_pos rfl] at hc2e hlt
    omega

/-- `calculate_claimable_tokens` succeeds whenever the result fits in
`u64`. -/
theorem calc_claimable_total {tv : TeamVesting} {t : Int}
    (hfit : (if tv.immediate_claimed = true then 0 else tv.immediate_tokens) +
      (tv.calculate_unlocked_vested_tokens t -
        (tv.claimed_tokens -
          (if tv.immediate_claimed = true then tv.immediate_tokens else 0)))
        < U64MOD) :
    tv.calculate_claimable_tokens t =
      .ok ((if tv.immediate_claimed = true then 0 else tv.immediate_tokens) +
        (tv.calculate_unlocked_vested_tokens t -
          (tv.claimed_tokens -
            (if tv.immediate_claimed = true then tv.immediate_tokens
              else 0)))) := by
  unfold TeamVesting.calculate_claimable_tokens
  cases htv : tv.immediate_claimed with
  | false =>
    rw [htv] at hfit
    simp only [if_neg (show ¬(false = true) by simp)] at hfit ⊢
    simp only [if_true, eq_self_iff_true]
    rw [checkedAdd_some (show (0 : Nat) + tv.immediate_tokens < U64MOD by
      omega)]
    simp only [okOr, Bind.bind, Except.bind]
    try dsimp only
    rw [checkedAdd_some (by omega)]
    simp [okOr, Nat.zero_add]
  | true =>
    rw [htv] at hfit
    simp only [eq_self_iff_true, if_true] at hfit ⊢
    rw [if_neg (by simp)]
    simp only [pure, Except.pure, Bind.bind, Except.bind]
    try dsimp only
    rw [checkedAdd_some (show (0 : Nat) +
      (tv.calculate_unlocked_vested_tokens t -
        (tv.claimed_tokens - tv.immediate_tokens)) < U64MOD by omega)]
    simp [okOr, Nat.zero_add]

/-- Characterization of a successful `claim_team_tokens` run. -/
theorem claim_team_spec {now : Int} {tv tv' : TeamVesting}
    (hok : claim_team_tokens_handler now tv = .ok tv') :
    ∃ c, tv.calculate_claimable_tokens now = .ok c ∧ 0 < c ∧
      tv'.immediate_tokens = tv.immediate_tokens ∧
      tv'.vesting_tokens = tv.vesting_tokens ∧
      tv'.vesting_start = tv.vesting_start ∧
      tv'.vesting_duration = tv.vesting_duration ∧
      tv'.claimed_tokens = tv.claimed_tokens + c ∧
      tv.claimed_tokens + c < U64MOD ∧
      tv'.immediate_claimed =
        (tv.immediate_claimed || decide (0 < tv.immediate_tokens)) := by
  unfold claim_team_tokens_handler at hok
  obtain ⟨c, hc, hok⟩ := bind_exc_ok hok
  obtain ⟨hpos, hok⟩ := bind_req_ok hok
  dsimp only at hok
  refine ⟨c, hc, hpos, ?_⟩
  split at hok
  case isTrue hcond =>
    obtain ⟨cl, hcl, hok⟩ := bind_okOr_ok hok
    obtain ⟨hcle, hlt⟩ := checkedAdd_ok hcl
    try dsimp only at hcle
    try dsimp only at hlt
    simp only [pure, Except.pure, Except.ok.injEq] at hok
    rw [← hok]
    refine ⟨rfl, rfl, rfl, rfl, by (try dsimp only); omega,
      by (try dsimp only); omega, ?_⟩
    simp [hcond.1, hcond.2]
  case isFalse hcond =>
    obtain ⟨cl, hcl, hok⟩ := bind_okOr_ok hok
    obtain ⟨hcle, hlt⟩ := checkedAdd_ok hcl
    try dsimp only at hcle
    try dsimp only at hlt
    simp only [pure, Except.pure, Except.ok.injEq] at hok
    rw [← hok]
    refine ⟨rfl, rfl, rfl, rfl, by (try dsimp only); omega,
      by (try dsimp only); omega, ?_⟩
    cases hic : tv.immediate_claimed with
    | true => simp
    | false =>
      have : ¬0 < tv.immediate_tokens := fun h => hcond ⟨hic, h⟩
      simp [this]

/-- Inductive invariant of reachable team-vesting schedules: `u64` field
bounds, `immediate_claimed → immediate ≤ claimed`,
`¬immediate_claimed → claimed ≤ vesting`, and `claimed ≤ immediate +
vesting`. -/
theorem team_reach_inv {tv : TeamVesting} (h : TeamVestReach tv) :
    tv.immediate_tokens < U64MOD ∧ tv.vesting_tokens < U64MOD ∧
    tv.claimed_tokens < U64MOD ∧
    (tv.immediate_claimed = true →
      tv.immediate_tokens ≤ tv.claimed_tokens) ∧
    (tv.immediate_claimed = false →
      tv.claimed_tokens ≤ tv.vesting_tokens) ∧
    tv.claimed_tokens ≤ tv.immediate_tokens + tv.vesting_tokens := by
  induction h with
  | init tv hcl hic himm hvest =>
    rw [hcl, hic]
    exact ⟨himm, hvest, by norm_num [U64MOD],
      fun h => absurd h (by simp), fun _ => Nat.zero_le _, Nat.zero_le _⟩
  | @claim tv1 tv2 now hr hok ih =>
    obtain ⟨c, hc, hcpos, himm, hvest, hstart, hdur, hclaimed, hfit, hic⟩ :=
      claim_team_spec hok
    obtain ⟨hcval, hclt⟩ := calc_claimable_spec hc
    obtain ⟨i1, i2, i3, i4, i5, i6⟩ := ih
    have hU := unlocked_le _ now i2
    rw [himm, hvest, hclaimed, hic]
    cases hi : tv1.immediate_claimed with
    | true =>
      rw [hi] at hcval
      simp only [if_pos rfl, eq_self_iff_true, if_true] at hcval
      have hi4 := i4 hi
      simp only [Bool.true_or]
      refine ⟨i1, i2, by omega, fun _ => by omega,
        fun hcontra => absurd hcontra (by simp), by omega⟩
    | false =>
      rw [hi] at hcval
      simp only [if_neg (by simp : ¬(false = true))] at hcval
      have hi5 := i5 hi
      cases hd : decide (0 < tv1.immediate_tokens) with
      | true =>
        simp only [Bool.false_or]
        refine ⟨i1, i2, by omega, fun _ => by omega,
          fun hcontra => absurd hcontra (by simp), by omega⟩
      | false =>
        have him0 : tv1.immediate_tokens = 0 := by
          have := of_decide_eq_false hd
          omega
        simp only [Bool.false_or]
        refine ⟨i1, i2, by omega, fun hcontra => absurd hcontra (by simp),
          fun _ => by omega, by omega⟩

/-- Immediately after a successful claim the claimable amount at the same
timestamp is again computable and equals 0. -/
theorem claimable_zero_after {now : Int} {tv tv' : TeamVesting}
    (hinv4 : tv.immediate_claimed = true →
      tv.immediate_tokens ≤ tv.claimed_tokens)
    (hok : claim_team_tokens_handler now tv = .ok tv') :
    tv'.calculate_claimable_tokens now = .ok 0 := by
  obtain ⟨c, hc, hcpos, himm, hvest, hstart, hdur, hclaimed, hfit, hic⟩ :=
    claim_team_spec hok
  obtain ⟨hcval, hclt⟩ := calc_claimable_spec hc
  have hcongr := unlocked_congr hvest hstart hdur now
  have h0 : (if tv'.immediate_claimed = true then 0
        else tv'.immediate_tokens) +
      (tv'.calculate_unlocked_vested_tokens now -
        (tv'.claimed_tokens - (if tv'.immediate_claimed = true
          then tv'.immediate_tokens else 0))) = 0 := by
    rw [hcongr, himm, hclaimed, hic]
    cases hi : tv.immediate_claimed with
    | true =>
      rw [hi] at hcval
      simp only [if_pos rfl, eq_self_iff_true, if_true] at hcval
      have h4 := hinv4 hi
      simp only [Bool.true_or, eq_self_iff_true, if_true]
      omega
    | false =>
      rw [hi] at hcval
      simp only [if_neg (by simp : ¬(false = true))] at hcval
      cases hd : decide (0 < tv.immediate_tokens) with
      | true =>
        simp only [Bool.false_or, eq_self_iff_true, if_true]
        omega
      | false =>
        have him0 : tv.immediate_tokens = 0 := by
          have := of_decide_eq_false hd
          omega
        simp only [Bool.false_or, if_neg (by simp : ¬(false = true))]
        omega
  have := @calc_claimable_total tv' now
    (by rw [h0]; norm_num [U64MOD])
  rw [h0] at this
  exact this

/-- The code's claimable amount equals the spec formula
`immediate_part + max 0 (unlocked_vested − already_vested_claimed)`, for
states satisfying the reachability invariant
`immediate_claimed → immediate ≤ claimed`. -/
theorem claimable_matches_spec {tv : TeamVesting} {t : Int} {c : Nat}
    (hwfv : tv.vesting_tokens < U64MOD)
    (hinv4 : tv.immediate_claimed = true →
      tv.immediate_tokens ≤ tv.claimed_tokens)
    (hok : tv.calculate_claimable_tokens t = .ok c) :
    (c : Int) = spec_claimable tv.immediate_tokens tv.vesting_tokens
      tv.claimed_tokens tv.immediate_claimed tv.vesting_start
      tv.vesting_duration t := by
  obtain ⟨hcval, -⟩ := calc_claimable_spec hok
  unfold spec_claimable
  rw [← unlocked_matches_spec tv t hwfv]
  dsimp only
  cases hi : tv.immediate_claimed with
  | true =>
    rw [hi] at hcval
    simp only [if_pos rfl, eq_self_iff_true, if_true] at hcval
    have h4 := hinv4 hi
    simp only [Bool.true_eq_false, eq_self_iff_true, if_true]
    rcases le_or_lt (tv.claimed_tokens - tv.immediate_tokens)
        (tv.calculate_unlocked_vested_tokens t) with hcase | hcase
    · rw [max_eq_right (by push_cast; omega)]
      push_cast
      omega
    · rw [max_eq_left (by push_cast; omega)]
      push_cast
      omega
  | false =>
    rw [hi] at hcval
    simp only [if_neg (by simp : ¬(false = true))] at hcval
    simp only [Bool.false_eq_true, if_false]
    rcases le_or_lt tv.claimed_tokens
        (tv.calculate_unlocked_vested_tokens t) with hcase | hcase
    · rw [max_eq_right (by push_cast; omega)]
      push_cast
      omega
    · rw [max_eq_left (by push_cast; omega)]
      push_cast
      omega

/-- The founder-currency claimable computation is the team-token one under
the field-renaming bridge. -/
theorem founder_calc_eq (fv : FounderVesting) (t : Int) :
    fv.calculate_claimable_sol t = fv.toTeam.calculate_claimable_tokens t :=
  rfl

theorem founder_unlocked_eq (fv : FounderVesting) (t : Int) :
    fv.calculate_unlocked_vested_sol t =
      fv.toTeam.calculate_unlocked_vested_tokens t :=
  rfl

theorem except_bind_ok {β : Type} (a : β) (f : β → Except ErrorCode α) :
    ((Except.ok a : Except ErrorCode β) >>= f) = f a :=
  rfl

/-- A successful founder-SOL claim is a successful team-token claim on the
bridged schedule (the two handlers differ only in the error they raise on a
zero claimable amount). -/
theorem claim_founder_toTeam {now : Int} {fv fv' : FounderVesting}
    (hok : claim_founder_sol_handler now fv = .ok fv') :
    claim_team_tokens_handler now fv.toTeam = .ok fv'.toTeam := by
  unfold claim_founder_sol_handler at hok
  obtain ⟨c, hc, hok⟩ := bind_exc_ok hok
  obtain ⟨hpos, hok⟩ := bind_req_ok hok
  dsimp only at hok
  unfold claim_team_tokens_handler
  rw [← founder_calc_eq fv now, hc, except_bind_ok,
    req_bind_pos hpos]
  dsimp only [FounderVesting.toTeam]
  split at hok
  case isTrue hcond =>
    rw [if_pos hcond]
    obtain ⟨cl, hcl, hok⟩ := bind_okOr_ok hok
    try dsimp only at hcl
    simp only [pure, Except.pure, Except.ok.injEq] at hok
    dsimp only
    rw [hcl]
    simp only [okOr, Bind.bind, Except.bind, pure, Except.pure]
    rw [← hok]
  case isFalse hcond =>
    rw [if_neg hcond]
    obtain ⟨cl, hcl, hok⟩ := bind_okOr_ok hok
    try dsimp only at hcl
    simp only [pure, Except.pure, Except.ok.injEq] at hok
    dsimp only
    rw [hcl]
    simp only [okOr, Bind.bind, Except.bind, pure, Except.pure]
    rw [← hok]

/-- Reachable founder-vesting schedules bridge to reachable team-vesting
schedules. -/
theorem founder_reach_toTeam {fv : FounderVesting}
    (h : FounderVestReach fv) : TeamVestReach fv.toTeam := by
  induction h with
  | init fv h1 h2 h3 h4 => exact TeamVestReach.init _ h1 h2 h3 h4
  | claim now hr hok ih =>
    exact TeamVestReach.claim now ih (claim_founder_toTeam hok)

/-- C7: on every reachable vesting schedule (team-token and founder-SOL
variants): (i) a successful claimable computation returns exactly the spec
formula `immediate_part + max 0 (unlocked_vested − already_vested_claimed)`
with `unlocked_vested` the duration-capped floor pro-rata; (ii) every
successful claim adds exactly the claimable amount to the claimed total;
(iii) the claimed total never exceeds `immediate + vesting` (the schedule
total); (iv) immediately after a successful claim the claimable amount at
the same timestamp recomputes to exactly 0. -/
theorem C7_vesting_claimable (tv : TeamVesting) (fv : FounderVesting)
    (now : Int) (ht : TeamVestReach tv) (hf : FounderVestReach fv) :
    (∀ c, tv.calculate_claimable_tokens now = .ok c →
      (c : Int) = spec_claimable tv.immediate_tokens tv.vesting_tokens
        tv.claimed_tokens tv.immediate_claimed tv.vesting_start
        tv.vesting_duration now) ∧
    (∀ tv' c, claim_team_tokens_handler now tv = .ok tv' →
      tv.calculate_claimable_tokens now = .ok c →
      tv'.claimed_tokens = tv.claimed_tokens + c) ∧
    tv.claimed_tokens ≤ tv.immediate_tokens + tv.vesting_tokens ∧
    (∀ tv', claim_team_tokens_handler now tv = .ok tv' →
      tv'.calculate_claimable_tokens now = .ok 0) ∧
    (∀ c, fv.calculate_claimable_sol now = .ok c →
      (c : Int) = spec_claimable fv.immediate_sol fv.vesting_sol
        fv.claimed_sol fv.immediate_claimed fv.vesting_start
        fv.vesting_duration now) ∧
    (∀ fv' c, claim_founder_sol_handler now fv = .ok fv' →
      fv.calculate_claimable_sol now = .ok c →
      fv'.claimed_sol = fv.claimed_sol + c) ∧
    fv.claimed_sol ≤ fv.immediate_sol + fv.vesting_sol ∧
    (∀ fv', claim_founder_sol_handler now fv = .ok fv' →
      fv'.calculate_claimable_sol now = .ok 0) := by
  obtain ⟨i1, i2, i3, i4, i5, i6⟩ := team_reach_inv ht
  obtain ⟨j1, j2, j3, j4, j5, j6⟩ := team_reach_inv (founder_reach_toTeam hf)
  refine ⟨?_, ?_, i6, ?_, ?_, ?_, j6, ?_⟩
  · intro c hc
    exact claimable_matches_spec i2 i4 hc
  · intro tv' c hcl hc
    obtain ⟨c', hc', -, -, -, -, -, hclaimed, -, -⟩ := claim_team_spec hcl
    rw [hc] at hc'
    injection hc' with hcc
    omega
  · intro tv' hcl
    exact claimable_zero_after i4 hcl
  · intro c hc
    rw [founder_calc_eq] at hc
    exact claimable_matches_spec j2 j4 hc
  · intro fv' c hcl hc
    obtain ⟨c', hc', -, -, -, -, -, hclaimed, -, -⟩ :=
      claim_team_spec (claim_founder_toTeam hcl)
    rw [founder_calc_eq] at hc
    rw [hc] at hc'
    injection hc' with hcc
    dsimp only [FounderVesting.toTeam] at hclaimed
    omega
  · intro fv' hcl
    rw [founder_calc_eq]
    exact claimable_zero_after j4 (claim_founder_toTeam hcl)

/-- C7 witness: the schedule `immediate = 8`, `vesting = 92`, duration
31104000s starting at 0, queried halfway (t = 15552000): claimable is
`8 + floor(92/2) = 54`, matching the spec formula; a claim at that instant
moves `claimed` from 0 to 54 and leaves claimable exactly 0, for both the
team-token and the founder-SOL variant. -/
theorem C7_witness :
    ((54 : Int) = spec_claimable 8 92 0 false 0 31104000 15552000) ∧
    (({ total_tokens := 100, immediate_tokens := 8, vesting_tokens := 92,
        claimed_tokens := 54, immediate_claimed := true, vesting_start := 0,
        vesting_duration := 31104000 } : TeamVesting).claimed_tokens =
      ({ total_tokens := 100, immediate_tokens := 8, vesting_tokens := 92,
         claimed_tokens := 0, immediate_claimed := false, vesting_start := 0,
         vesting_duration := 31104000 } : TeamVesting).claimed_tokens + 54) ∧
    (({ total_tokens := 100, immediate_tokens := 8, vesting_tokens := 92,
        claimed_tokens := 54, immediate_claimed := true, vesting_start := 0,
        vesting_duration := 31104000 } : TeamVesting).calculate_claimable_tokens
      15552000 = .ok 0) ∧
    (({ total_sol := 100, immediate_sol := 8, vesting_sol := 92,
        claimed_sol := 54, immediate_claimed := true, vesting_start := 0,
        vesting_duration := 31104000 } : FounderVesting).calculate_claimable_sol
      15552000 = .ok 0) := by
  have h := C7_vesting_claimable
    { total_tokens := 100, immediate_tokens := 8, vesting_tokens := 92,
      claimed_tokens := 0, immediate_claimed := false, vesting_start := 0,
      vesting_duration := 31104000 }
    { total_sol := 100, immediate_sol := 8, vesting_sol := 92,
      claimed_sol := 0, immediate_claimed := false, vesting_start := 0,
      vesting_duration := 31104000 }
    15552000
    (TeamVestReach.init _ rfl rfl (by norm_num [U64MOD])
      (by norm_num [U64MOD]))
    (FounderVestReach.init _ rfl rfl (by norm_num [U64MOD])
      (by norm_num [U64MOD]))
  obtain ⟨h1, h2, -, h4, -, -, -, h8⟩ := h
  exact ⟨h1 54 rfl, h2 _ 54 rfl rfl, h4 _ rfl, h8 _ rfl⟩

/-- C10 witness: a freshly created market (target 0.5 SOL) satisfies the
Prediction-phase cap `pool_balance ≤ target_pool`, and on a market whose
`pool_balance` already equals its `target_pool` a further `buy_yes` or
`buy_no` never succeeds. -/
theorem C10_witness :
    (({ target_pool := 500000000, pool_balance := 0, distribution_pool := 0,
        yes_pool := 500000000, no_pool := 500000000, total_yes_shares := 0,
        total_no_shares := 0, expiry_time := 100, phase := .Prediction,
        resolution := .Unresolved, platform_tokens_allocated := 0,
        yes_voter_tokens_allocated := 0,
        founder_excess_sol_allocated := 0 } : Market).pool_balance ≤
      ({ target_pool := 500000000, pool_balance := 0, distribution_pool := 0,
         yes_pool := 500000000, no_pool := 500000000, total_yes_shares := 0,
         total_no_shares := 0, expiry_time := 100, phase := .Prediction,
         resolution := .Unresolved, platform_tokens_allocated := 0,
         yes_voter_tokens_allocated := 0,
         founder_excess_sol_allocated := 0 } : Market).target_pool) ∧
    (buy_yes_handler 0
        { target_pool := 500000000, pool_balance := 500000000,
          distribution_pool := 0, yes_pool := 500000000,
          no_pool := 500000000, total_yes_shares := 0, total_no_shares := 0,
          expiry_time := 100, phase := .Prediction,
          resolution := .Unresolved, platform_tokens_allocated := 0,
          yes_voter_tokens_allocated := 0, founder_excess_sol_allocated := 0 }
        .init 20000000 ≠
      .ok ({ target_pool := 500000000, pool_balance := 500000000,
             distribution_pool := 0, yes_pool := 500000000,
             no_pool := 500000000, total_yes_shares := 0, total_no_shares := 0,
             expiry_time := 100, phase := .Prediction,
             resolution := .Unresolved, platform_tokens_allocated := 0,
             yes_voter_tokens_allocated := 0,
             founder_excess_sol_allocated := 0 }, .init)) ∧
    (buy_no_handler 0
        { target_pool := 500000000, pool_balance := 500000000,
          distribution_pool := 0, yes_pool := 500000000,
          no_pool := 500000000, total_yes_shares := 0, total_no_shares := 0,
          expiry_time := 100, phase := .Prediction,
          resolution := .Unresolved, platform_tokens_allocated := 0,
          yes_voter_tokens_allocated := 0, founder_excess_sol_allocated := 0 }
        .init 20000000 ≠
      .ok ({ target_pool := 500000000, pool_balance := 500000000,
             distribution_pool := 0, yes_pool := 500000000,
             no_pool := 500000000, total_yes_shares := 0, total_no_shares := 0,
             expiry_time := 100, phase := .Prediction,
             resolution := .Unresolved, platform_tokens_allocated := 0,
             yes_voter_tokens_allocated := 0,
             founder_excess_sol_allocated := 0 }, .init)) := by
  refine ⟨C10_pool_capped.1 _
    (TradeReach.created 0 500000000 100 rfl) rfl, ?_, ?_⟩
  · exact (C10_pool_capped.2 0 _ .init 20000000 _ rfl rfl).1
  · exact (C10_pool_capped.2 0 _ .init 20000000 _ rfl rfl).2

end PLP
